import Mathlib

/-!
Verification of the pseudocode syntax checker (`checkSyntax` in
`src/app/utils/syntaxChecker.ts`).

The checker is a pure function from a source string to a result
`{isValid, errors}`.  We embed it shallowly: lines are `List Char`,
the per-line rule battery, the block stack, the symbol tables, the
post-pass sweeps and the deduplication step are transcribed rule by
rule from the source.  All scanners that model JavaScript regular
expressions are written with explicit fuel so that every definition
is structurally recursive and kernel-reducible (concrete inputs can
be settled with `decide`).

Modelling conventions:
- JS strings are `List Char`; `String.data` converts at the boundary.
- JS `Map` (only ever observed through `get`) is an association list
  where `set` prepends, so the most recent binding wins, matching
  `Map.set` overwrite semantics; `Set` is a list with membership.
- Number-to-string interpolation `${n}` is `natDigits n` (decimal).
- Lines are produced by splitting on `'\n'` exactly as `code.split('\n')`.
-/

namespace PseudoChecker

/-- The double-quote character. -/
def dqChar : Char := Char.ofNat 34
/-- The single-quote character. -/
def sqChar : Char := Char.ofNat 39
/-- The backslash character. -/
def bslChar : Char := Char.ofNat 92

/-- JS whitespace class: the characters matched by `\s` and removed by
`String.prototype.trim` (WhiteSpace ∪ LineTerminator). -/
def jsIsSpace (c : Char) : Bool :=
  let n := c.toNat
  n == 0x9 || n == 0xA || n == 0xB || n == 0xC || n == 0xD || n == 0x20 ||
  n == 0xA0 || n == 0x1680 || (0x2000 ≤ n && n ≤ 0x200A) ||
  n == 0x2028 || n == 0x2029 || n == 0x202F || n == 0x205F || n == 0x3000 ||
  n == 0xFEFF

/-- JS word-character class `\w` = `[A-Za-z0-9_]`. -/
def isWordChar (c : Char) : Bool :=
  let n := c.toNat
  (65 ≤ n && n ≤ 90) || (97 ≤ n && n ≤ 122) || (48 ≤ n && n ≤ 57) || n == 95

/-- JS digit class `\d` = `[0-9]`. -/
def isDigitB (c : Char) : Bool :=
  48 ≤ c.toNat && c.toNat ≤ 57

/-- Letters `[A-Za-z]`. -/
def isAlphaB (c : Char) : Bool :=
  (65 ≤ c.toNat && c.toNat ≤ 90) || (97 ≤ c.toNat && c.toNat ≤ 122)

/-- Identifier-start class `[a-zA-Z_]`. -/
def isIdentStart (c : Char) : Bool :=
  isAlphaB c || c.toNat == 95

/-- Uppercase letters `[A-Z]`. -/
def isUpperAlpha (c : Char) : Bool :=
  65 ≤ c.toNat && c.toNat ≤ 90

/-- ASCII upper-casing of one character (JS `toUpperCase` on the
identifier/keyword alphabet the checker manipulates). -/
def charUpper (c : Char) : Char :=
  if 97 ≤ c.toNat && c.toNat ≤ 122 then Char.ofNat (c.toNat - 32) else c

/-- ASCII lower-casing of one character. -/
def charLower (c : Char) : Char :=
  if 65 ≤ c.toNat && c.toNat ≤ 90 then Char.ofNat (c.toNat + 32) else c

/-- JS `s.toUpperCase()`. -/
def strUpper (l : List Char) : List Char := l.map charUpper

/-- JS `s.toLowerCase()`. -/
def strLower (l : List Char) : List Char := l.map charLower

/-- Case-insensitive character equality (ASCII). -/
def charEqCI (a b : Char) : Bool := charUpper a == charUpper b

/-- JS `s.trim()`: strip leading and trailing whitespace. -/
def jsTrim (l : List Char) : List Char :=
  ((l.dropWhile jsIsSpace).reverse.dropWhile jsIsSpace).reverse

/-- Number of leading whitespace characters
(`line.length - line.trimStart().length`). -/
def leadingWs (l : List Char) : Nat :=
  (l.takeWhile jsIsSpace).length

/-- Decision of `p.isPrefixOf l` for char lists (JS `startsWith`). -/
def hasPre : List Char → List Char → Bool
  | [], _ => true
  | _ :: _, [] => false
  | a :: as, b :: bs => a == b && hasPre as bs

/-- JS `l.startsWith(p)` : p is a prefix of l. -/
def jsStartsWith (l p : List Char) : Bool := hasPre p l

/-- JS `l.includes(sub)` : contiguous substring test. -/
def jsIncludes : List Char → List Char → Bool
  | l, sub =>
    hasPre sub l ||
      match l with
      | [] => false
      | _ :: t => jsIncludes t sub

/-- Case-insensitive prefix test `hasPreCI l p`: does `l` start with the
pattern `p`, comparing ASCII-case-insensitively (for `/.../i` literals)? -/
def hasPreCI : List Char → List Char → Bool
  | _, [] => true
  | [], _ :: _ => false
  | b :: bs, a :: as => charEqCI a b && hasPreCI bs as

/-- JS `code.split('\n')`. -/
def splitNl : List Char → List (List Char)
  | [] => [[]]
  | c :: cs =>
    if c == '\n' then [] :: splitNl cs
    else
      match splitNl cs with
      | [] => [[c]]
      | t :: ts => (c :: t) :: ts

/-- JS `s.split(sep)` for a one-character separator (used for `','` and `':'`). -/
def splitChar (sep : Char) : List Char → List (List Char)
  | [] => [[]]
  | c :: cs =>
    if c == sep then [] :: splitChar sep cs
    else
      match splitChar sep cs with
      | [] => [[c]]
      | t :: ts => (c :: t) :: ts

/-- Fuelled worker for `jsSplitWs`. -/
def wsSplitF : Nat → List Char → List (List Char)
  | _, [] => [[]]
  | 0, l => [l.takeWhile (fun c => !jsIsSpace c)]
  | fuel + 1, l =>
    let tok := l.takeWhile (fun c => !jsIsSpace c)
    match l.dropWhile (fun c => !jsIsSpace c) with
    | [] => [tok]
    | _ :: rest2 => tok :: wsSplitF fuel (rest2.dropWhile jsIsSpace)

/-- JS `s.split(/\s+/)`: tokens separated by maximal whitespace runs; a
leading (resp. trailing) whitespace run yields a leading (resp. trailing)
empty token, as in JavaScript. -/
def jsSplitWs (l : List Char) : List (List Char) :=
  wsSplitF l.length l

/-- Model of the regex replacement `replace(/\/\/.*$/, '')`: cut the line at
the first `//` (lines produced by splitting on newlines contain no line
terminators, so `.*$` reaches the end of the line). -/
def cutLineComment : List Char → List Char
  | [] => []
  | '/' :: '/' :: _ => []
  | c :: cs => c :: cutLineComment cs

/-- Fuelled worker for `stripQuoted`. -/
def stripQuotedF (q : Char) : Nat → List Char → List Char
  | 0, l => l
  | fuel + 1, l =>
    match l with
    | [] => []
    | c :: cs =>
      if c == q then
        if cs.any (· == q) then
          stripQuotedF q fuel ((cs.dropWhile (· != q)).tail)
        else
          c :: cs
      else
        c :: stripQuotedF q fuel cs

/-- Model of `replace(/q[^q]*q/g, '')` for a quote character `q`: repeatedly
remove the leftmost balanced pair; an unpaired final quote (and everything
after it) is left untouched, as the regex cannot match it. -/
def stripQuoted (q : Char) (l : List Char) : List Char :=
  stripQuotedF q l.length l

/-- Fuelled worker for `wordRuns`. -/
def wordRunsF : Nat → List Char → List (List Char)
  | 0, _ => []
  | _ + 1, [] => []
  | fuel + 1, c :: cs =>
    if isWordChar c then
      (c :: cs.takeWhile isWordChar) :: wordRunsF fuel (cs.dropWhile isWordChar)
    else
      wordRunsF fuel cs

/-- Maximal runs of word characters in a line (the candidate matches of the
`\b...\b`-delimited identifier regexes). -/
def wordRuns (l : List Char) : List (List Char) :=
  wordRunsF l.length l

/-- Matches of `/\b[a-zA-Z][a-zA-Z0-9_]*\b/g`: maximal word runs starting
with a letter (runs starting with a digit or `_` have no word boundary
before their first letter, hence never match). -/
def identMatchesLetter (l : List Char) : List (List Char) :=
  (wordRuns l).filter (fun r => (r.headD ' ').toNat ≠ 95 && isAlphaB (r.headD ' '))

/-- Matches of `/\b([a-zA-Z_][a-zA-Z0-9_]*)\b/g`: maximal word runs starting
with a letter or underscore. -/
def identMatchesUnders (l : List Char) : List (List Char) :=
  (wordRuns l).filter (fun r => isIdentStart (r.headD ' '))

/-- Fuelled worker for `sqLiterals`. -/
def sqLiteralsF : Nat → List Char → List (List Char)
  | 0, _ => []
  | _ + 1, [] => []
  | fuel + 1, c :: cs =>
    if c == sqChar then
      if cs.any (· == sqChar) then
        (cs.takeWhile (· != sqChar)) :: sqLiteralsF fuel ((cs.dropWhile (· != sqChar)).tail)
      else []
    else sqLiteralsF fuel cs

/-- Matches of `/'[^']*'/g`: the contents (without quotes) of the
left-to-right paired single-quoted literals of the line. -/
def sqLiterals (l : List Char) : List (List Char) :=
  sqLiteralsF l.length l

/-- Decimal digits of a natural number (fuelled; fuel `n+1` suffices). -/
def natDigitsF : Nat → Nat → List Char
  | 0, _ => []
  | fuel + 1, n =>
    if n < 10 then [Char.ofNat (48 + n)]
    else natDigitsF fuel (n / 10) ++ [Char.ofNat (48 + n % 10)]

/-- Decimal rendering of a natural number, as interpolated by `${n}`. -/
def natDigits (n : Nat) : List Char := natDigitsF (n + 1) n

/-- Numeric value of a digit string (`parseInt` on a `\d+` match). -/
def digitsToNat (l : List Char) : Nat :=
  l.foldl (fun a c => 10 * a + (c.toNat - 48)) 0

/-- Shorthand: the character data of a string literal. -/
def str (s : String) : List Char := s.data

/-- Search a pattern-at-position matcher over every start position of the
line, leftmost first (the JS regex engine's scan for an unanchored match). -/
def searchO {α : Type} (f : List Char → Option α) : List Char → Option α
  | [] => f []
  | c :: t =>
    match f (c :: t) with
    | some r => some r
    | none => searchO f t

/-- Diagnostic severity (`type: 'error' | 'warning'`). -/
inductive Severity
  | error
  | warning
deriving DecidableEq, Repr

/-- One diagnostic (`SyntaxError` in `src/app/types.ts`). -/
structure Diag where
  line : Nat
  message : List Char
  type : Severity
deriving DecidableEq, Repr

/-- The result record (`SyntaxCheckResult` in `src/app/types.ts`). -/
structure SyntaxCheckResult where
  isValid : Bool
  errors : List Diag
deriving DecidableEq, Repr

/-- One entry of the block stack (`{ keyword, line }`). -/
structure BlockEntry where
  keyword : List Char
  line : Nat
deriving DecidableEq, Repr

/-- One entry of the array table (`{ start, end, line }`; `end` is a Lean
keyword, so the field is named `stop`). -/
structure ArrInfo where
  start : Nat
  stop : Nat
  line : Nat
deriving DecidableEq, Repr

/-- One entry of the variable-type table (`{ type, line }`). -/
structure TypeInfo where
  type : List Char
  line : Nat
deriving DecidableEq, Repr

/-- JS `Map.get`: the value of the most recent binding of the key. -/
def mapGet {V : Type} (m : List (List Char × V)) (k : List Char) : Option V :=
  (m.find? (fun p => p.1 == k)).map (·.2)

/-- JS `Map.set`: prepend, so that `mapGet` sees the newest binding
(overwrite semantics; the tables are only ever read through `get`). -/
def mapSet {V : Type} (m : List (List Char × V)) (k : List Char) (v : V) :
    List (List Char × V) :=
  (k, v) :: m

/-- The scan-local mutable state of one `checkSyntax` invocation. -/
structure St where
  errors : List Diag
  blockStack : List BlockEntry
  arrayDecls : List (List Char × ArrInfo)
  declaredVars : List (List Char)
  varTypes : List (List Char × TypeInfo)
  declaredFns : List (List Char)
deriving Repr

/-- The recognized keywords (`KEYWORDS`, source lines 4–30). -/
def KEYWORDS : List (List Char) :=
  [str "DECLARE", str "CONSTANT", str "TYPE", str "ENDTYPE", str "DEFINE",
   str "INTEGER", str "REAL", str "CHAR", str "STRING", str "BOOLEAN",
   str "DATE", str "ARRAY", str "OF", str "SET",
   str "IF", str "THEN", str "ELSE", str "ENDIF", str "ELSEIF",
   str "CASE", str "ENDCASE", str "OTHERWISE",
   str "FOR", str "TO", str "NEXT", str "STEP",
   str "WHILE", str "ENDWHILE", str "REPEAT", str "UNTIL",
   str "BREAK",
   str "PROCEDURE", str "ENDPROCEDURE", str "FUNCTION", str "ENDFUNCTION",
   str "RETURN", str "RETURNS", str "CALL", str "BYVAL", str "BYREF",
   str "INPUT", str "OUTPUT",
   str "OPENFILE", str "READFILE", str "WRITEFILE", str "CLOSEFILE",
   str "SEEK", str "GETRECORD", str "PUTRECORD",
   str "AND", str "OR", str "NOT", str "MOD", str "DIV",
   str "TRUE", str "FALSE",
   str "RIGHT", str "LEFT", str "LENGTH", str "MID", str "LCASE", str "UCASE",
   str "INT", str "RAND"]

/-- The opener → required-closer table (`BLOCK_KEYWORDS`, lines 33–42). -/
def BLOCK_KEYWORDS : List (List Char × List Char) :=
  [(str "IF", str "ENDIF"), (str "FOR", str "NEXT"),
   (str "WHILE", str "ENDWHILE"), (str "REPEAT", str "UNTIL"),
   (str "PROCEDURE", str "ENDPROCEDURE"), (str "FUNCTION", str "ENDFUNCTION"),
   (str "CASE", str "ENDCASE"), (str "TYPE", str "ENDTYPE")]

/-- Lookup in `BLOCK_KEYWORDS` (`BLOCK_KEYWORDS[kw]`; the all-caps first
words reaching this lookup never collide with `Object.prototype` names,
which are lower/camel-case). -/
def blockCloserOf (kw : List Char) : Option (List Char) :=
  (BLOCK_KEYWORDS.find? (fun p => p.1 == kw)).map (·.2)

/-- The deny-list of foreign keywords (line 215). -/
def INVALID_KEYWORDS : List (List Char) :=
  [str "CONTINUE", str "DO", str "SWITCH", str "DEFAULT", str "TRY", str "CATCH"]

/-- Test `/^[a-zA-Z][a-zA-Z0-9_]*$/`. -/
def identFullTest : List Char → Bool
  | [] => false
  | c :: cs => isAlphaB c && cs.all isWordChar

/-- Test `/^[a-zA-Z_][a-zA-Z0-9_]*$/`. -/
def identTest : List Char → Bool
  | [] => false
  | c :: cs => isIdentStart c && cs.all isWordChar

/-- Test `/^[A-Z]+$/`. -/
def allCapsTest (l : List Char) : Bool :=
  !l.isEmpty && l.all isUpperAlpha

/-- Test `/^[A-Z][A-Z0-9_]*$/`. -/
def capsIdentTest : List Char → Bool
  | [] => false
  | c :: cs => isUpperAlpha c && cs.all (fun d => isUpperAlpha d || isDigitB d || d.toNat == 95)

/-- Test of `/^[a-zA-Z_][a-zA-Z0-9_]*\s*X/` for a final literal `X`
(the assignment / constant anchored patterns of lines 134–135). -/
def anchoredIdentThen (x : Char) : List Char → Bool
  | [] => false
  | c :: cs =>
    isIdentStart c && ((cs.dropWhile isWordChar).dropWhile jsIsSpace).headD ' ' == x

/-- Index of the first occurrence of a character (JS `indexOf`). -/
def charIdx (c : Char) : List Char → Option Nat
  | [] => none
  | h :: t => if h == c then some 0 else (charIdx c t).map (· + 1)

/-- Indentation rule (lines 78–86): leading spaces must be a multiple of 3. -/
def indentErrs (line : List Char) (ln : Nat) : List Diag :=
  if leadingWs line % 3 ≠ 0 then
    [⟨ln, str "Indentation should be multiples of 3 spaces", Severity.warning⟩]
  else []

/-- Assignment-operator rule (lines 88–100). -/
def assignOpErrs (t : List Char) (ln : Nat) : List Diag :=
  if jsIncludes t (str "=") && !jsIncludes t (str "<=") && !jsIncludes t (str ">=") &&
      !jsIncludes t (str "<>") && !jsStartsWith t (str "CONSTANT") then
    if !(wordRuns t).any (fun r => r == str "IF" || r == str "WHILE" || r == str "UNTIL") &&
        !jsIncludes t (str "←") then
      [⟨ln, str "Use ← for assignment instead of = (Cambridge rule)", Severity.error⟩]
    else []
  else []

/-- Identifier-shape rule (lines 102–125).  The candidate matches of
`/\b[a-zA-Z][a-zA-Z0-9_]*\b/g` always start with a letter and consist of
word characters, so neither branch can actually fire; the rule is
transcribed as written. -/
def identShapeErrs (t : List Char) (ln : Nat) : List Diag :=
  (identMatchesLetter t).flatMap (fun ident =>
    if !KEYWORDS.contains (strUpper ident) then
      (if isDigitB (ident.headD ' ') then
        [⟨ln, str "Identifier '" ++ ident ++ str "' cannot start with a number", Severity.error⟩]
       else []) ++
      (if !identFullTest ident then
        [⟨ln, str "Identifier '" ++ ident ++ str "' contains invalid characters", Severity.error⟩]
       else [])
    else [])

/-- Line-has-valid-structure rule (lines 127–145). -/
def structureErrs (t : List Char) (words : List (List Char)) (ln : Nat) : List Diag :=
  if !(words.any (fun w => KEYWORDS.contains (strUpper w)) ||
      jsIncludes t (str "←") ||
      anchoredIdentThen '←' t ||
      anchoredIdentThen '=' t ||
      jsIncludes t (str ":")) then
    [⟨ln, str "This line does not appear to be valid pseudocode. Use Cambridge keywords and proper syntax.", Severity.error⟩]
  else []

/-- First-word keyword check and block open/close handling (lines 147–189),
entered when the first word matches `/^[A-Z]+$/`.  The JS stack is an array
pushed/popped at its end; the model does the same. -/
def blockHandling (firstWord : List Char) (ln : Nat) (stack : List BlockEntry) :
    List Diag × List BlockEntry :=
  let unknownErrs :=
    if !KEYWORDS.contains firstWord && !capsIdentTest firstWord then
      [⟨ln, str "Unknown keyword: " ++ firstWord, Severity.error⟩]
    else []
  let stack1 :=
    if (blockCloserOf firstWord).isSome then stack ++ [⟨firstWord, ln⟩] else stack
  let closing := BLOCK_KEYWORDS.map (·.2)
  if closing.contains firstWord || firstWord == str "NEXT" || firstWord == str "UNTIL" then
    if stack1.isEmpty then
      (unknownErrs ++ [⟨ln, str "Unexpected " ++ firstWord ++ str " without matching opening", Severity.error⟩],
       stack1)
    else
      let lastBlock := stack1.getLastD ⟨[], 0⟩
      let stack2 := stack1.dropLast
      let expectedClosing := (blockCloserOf lastBlock.keyword).getD []
      if firstWord != expectedClosing &&
          !(lastBlock.keyword == str "FOR" && firstWord == str "NEXT") &&
          !(lastBlock.keyword == str "REPEAT" && firstWord == str "UNTIL") then
        (unknownErrs ++ [⟨ln, str "Expected " ++ expectedClosing ++ str " but found " ++ firstWord, Severity.error⟩],
         stack2)
      else (unknownErrs, stack2)
  else (unknownErrs, stack1)

/-- Keyword-casing rule (lines 191–212), applied to the line with comments
and quoted strings stripped. -/
def casingErrs (lineWithoutStrings : List Char) (ln : Nat) : List Diag :=
  (jsSplitWs lineWithoutStrings).flatMap (fun word =>
    if KEYWORDS.contains (strUpper word) && word != strUpper word && word.length > 0 then
      [⟨ln, str "Keyword '" ++ word ++ str "' should be uppercase: '" ++ strUpper word ++ str "'", Severity.error⟩]
    else [])

/-- Foreign-keyword rule (lines 214–224). -/
def foreignKwErrs (words : List (List Char)) (ln : Nat) : List Diag :=
  words.flatMap (fun word =>
    if INVALID_KEYWORDS.contains (strUpper word) then
      [⟨ln, str "'" ++ word ++ str "' is not a valid Cambridge pseudocode keyword", Severity.error⟩]
    else [])

/-- Matcher for `/DECLARE\s+([a-zA-Z_][a-zA-Z0-9_]*)\s*:\s*ARRAY\[(\d+):(\d+)\]/i`
at one start position, returning (name, low digits, high digits). -/
def tryDeclArrAt (l : List Char) : Option (List Char × List Char × List Char) :=
  if hasPreCI l (str "DECLARE") then
    let r1 := l.drop 7
    if (r1.takeWhile jsIsSpace).isEmpty then none
    else
      let r2 := r1.dropWhile jsIsSpace
      if isIdentStart (r2.headD ' ') then
        let name := r2.takeWhile isWordChar
        match (r2.dropWhile isWordChar).dropWhile jsIsSpace with
        | ':' :: r4 =>
          let r5 := r4.dropWhile jsIsSpace
          if hasPreCI r5 (str "ARRAY[") then
            let r6 := r5.drop 6
            let d1 := r6.takeWhile isDigitB
            if d1.isEmpty then none
            else
              match r6.dropWhile isDigitB with
              | ':' :: r7 =>
                let d2 := r7.takeWhile isDigitB
                if d2.isEmpty then none
                else
                  match r7.dropWhile isDigitB with
                  | ']' :: _ => some (name, d1, d2)
                  | _ => none
              | _ => none
          else none
        | _ => none
      else none
  else none

/-- The array-declaration regex of line 283, searched anywhere in the line. -/
def matchDeclArr (l : List Char) : Option (List Char × List Char × List Char) :=
  searchO tryDeclArrAt l

/-- One step of the per-name `forEach` of the DECLARE rule (lines 244–279):
reserved-name error, redeclaration error/warning, or registration. -/
def declVarStep (ln : Nat) (afterColon : List Char)
    (acc : List Diag × List (List Char) × List (List Char × TypeInfo))
    (varName : List Char) :
    List Diag × List (List Char) × List (List Char × TypeInfo) :=
  if !varName.isEmpty && identTest varName then
    if KEYWORDS.contains (strUpper varName) then
      (acc.1 ++ [⟨ln, str "'" ++ varName ++ str "' is a reserved keyword and cannot be used as a variable name", Severity.error⟩],
       acc.2.1, acc.2.2)
    else
      if acc.2.1.contains (strLower varName) then
        match mapGet acc.2.2 (strLower varName) with
        | some prev =>
          if prev.type != afterColon then
            (acc.1 ++ [⟨ln, str "Variable '" ++ varName ++ str "' redeclared with different type. Previously declared as " ++ prev.type ++ str " on line " ++ natDigits prev.line, Severity.error⟩],
             acc.2.1, acc.2.2)
          else
            (acc.1 ++ [⟨ln, str "Variable '" ++ varName ++ str "' already declared on line " ++ natDigits prev.line, Severity.warning⟩],
             acc.2.1, acc.2.2)
        | none =>
          (acc.1 ++ [⟨ln, str "Variable '" ++ varName ++ str "' already declared on line unknown", Severity.warning⟩],
           acc.2.1, acc.2.2)
      else
        (acc.1, strLower varName :: acc.2.1, mapSet acc.2.2 (strLower varName) ⟨afterColon, ln⟩)
  else (acc.1, acc.2.1, acc.2.2)

/-- DECLARE handling (lines 227–291): colon check, per-name registration
with redeclaration diagnostics, and array-bounds registration. -/
def declareHandling (t : List Char) (ln : Nat) (vars : List (List Char))
    (types : List (List Char × TypeInfo)) (arrays : List (List Char × ArrInfo)) :
    List Diag × List (List Char) × List (List Char × TypeInfo) × List (List Char × ArrInfo) :=
  if !jsStartsWith t (str "DECLARE") then ([], vars, types, arrays)
  else if !jsIncludes t (str ":") then
    ([⟨ln, str "DECLARE statement must specify variable type with colon (:)", Severity.error⟩],
     vars, types, arrays)
  else
    let r :=
      match charIdx ':' (jsTrim (t.drop 7)) with
      | none => ([], vars, types)
      | some colonIndex =>
        (((splitChar ',' (jsTrim ((jsTrim (t.drop 7)).take colonIndex))).map jsTrim).foldl
          (declVarStep ln (jsTrim ((jsTrim (t.drop 7)).drop (colonIndex + 1))))
          ([], vars, types))
    let arrays1 :=
      match matchDeclArr t with
      | some m =>
        mapSet arrays (strLower m.1) ⟨digitsToNat m.2.1, digitsToNat m.2.2, ln⟩
      | none => arrays
    (r.1, r.2.1, r.2.2, arrays1)

/-- Matcher for `/CONSTANT\s+([a-zA-Z_][a-zA-Z0-9_]*)\s*=/i` at one position. -/
def tryConstantAt (l : List Char) : Option (List Char) :=
  if hasPreCI l (str "CONSTANT") then
    let r1 := l.drop 8
    if (r1.takeWhile jsIsSpace).isEmpty then none
    else
      let r2 := r1.dropWhile jsIsSpace
      if isIdentStart (r2.headD ' ') then
        let name := r2.takeWhile isWordChar
        match (r2.dropWhile isWordChar).dropWhile jsIsSpace with
        | '=' :: _ => some name
        | _ => none
      else none
  else none

/-- CONSTANT handling (lines 293–319). -/
def constantHandling (t : List Char) (ln : Nat) (vars : List (List Char))
    (types : List (List Char × TypeInfo)) :
    List Diag × List (List Char) × List (List Char × TypeInfo) :=
  if !jsStartsWith t (str "CONSTANT") then ([], vars, types)
  else
    let e1 :=
      if !jsIncludes t (str "=") then
        [⟨ln, str "CONSTANT must be assigned a value using =", Severity.error⟩]
      else []
    let e2 :=
      if jsIncludes t (str "←") then
        [⟨ln, str "CONSTANT declarations use = not ←", Severity.error⟩]
      else []
    match searchO tryConstantAt t with
    | some constantName =>
      (e1 ++ e2, strLower constantName :: vars,
       mapSet types (strLower constantName) ⟨str "CONSTANT", ln⟩)
    | none => (e1 ++ e2, vars, types)

/-- ARRAY declaration format rule (lines 321–337). -/
def arrayFormatErrs (t : List Char) (ln : Nat) : List Diag :=
  if jsStartsWith t (str "DECLARE") && jsIncludes t (str "ARRAY") then
    (if !jsIncludes t (str "[") || !jsIncludes t (str "]") then
      [⟨ln, str "ARRAY declaration must include index range in square brackets [start:end]", Severity.error⟩]
     else []) ++
    (if !jsIncludes t (str "OF") then
      [⟨ln, str "ARRAY declaration must include OF keyword", Severity.error⟩]
     else [])
  else []

/-- FOR loop shape rule (lines 339–348). -/
def forSyntaxErrs (t : List Char) (ln : Nat) : List Diag :=
  if jsStartsWith t (str "FOR") && (!jsIncludes t (str "←") || !jsIncludes t (str "TO")) then
    [⟨ln, str "FOR loop must use format: FOR variable ← start TO end", Severity.error⟩]
  else []

/-- CASE OF shape rule (lines 350–359; the condition cannot fire since
`CASE OF` contains `OF`). -/
def caseOfErrs (t : List Char) (ln : Nat) : List Diag :=
  if jsStartsWith t (str "CASE OF") && !jsIncludes t (str "OF") then
    [⟨ln, str "CASE statement must use format: CASE OF variable", Severity.error⟩]
  else []

/-- WHILE parenthesis rule (lines 361–370). -/
def whileParenErrs (t : List Char) (ln : Nat) : List Diag :=
  if jsStartsWith t (str "WHILE") && jsIncludes t (str "(") && jsIncludes t (str ")") then
    [⟨ln, str "WHILE conditions should not use parentheses in Cambridge pseudocode", Severity.error⟩]
  else []

/-- Odd number of double quotes on the line (lines 373–374). -/
def oddQuoteCount (t : List Char) : Bool :=
  t.countP (· == dqChar) % 2 ≠ 0

/-- Unclosed-string rule (lines 372–381). -/
def unclosedStringErrs (t : List Char) (ln : Nat) : List Diag :=
  if oddQuoteCount t then
    [⟨ln, str "Unclosed string - missing closing quote", Severity.error⟩]
  else []

/-- CHAR literal rules (lines 383–402). -/
def charLiteralErrs (t : List Char) (ln : Nat) : List Diag :=
  (sqLiterals t).flatMap (fun content =>
    if content.isEmpty then
      [⟨ln, str "Empty CHAR literal - CHAR must contain exactly one character", Severity.error⟩]
    else if content.length > 1 && !jsStartsWith content [bslChar] then
      [⟨ln, str "CHAR literal can only contain one character. Use double quotes for strings", Severity.error⟩]
    else [])

/-- Matcher for `/DECLARE\s+\w+\s*:\s*CHAR/` (case-sensitive) at one position. -/
def tryDeclCharAt (l : List Char) : Option Unit :=
  if hasPre (str "DECLARE") l then
    let r1 := l.drop 7
    if (r1.takeWhile jsIsSpace).isEmpty then none
    else
      let r2 := r1.dropWhile jsIsSpace
      if (r2.takeWhile isWordChar).isEmpty then none
      else
        match (r2.dropWhile isWordChar).dropWhile jsIsSpace with
        | ':' :: r4 =>
          if hasPre (str "CHAR") (r4.dropWhile jsIsSpace) then some () else none
        | _ => none
  else none

/-- DECLARE-of-CHAR with double quotes rule (lines 404–411). -/
def declCharErrs (t : List Char) (ln : Nat) : List Diag :=
  if (searchO tryDeclCharAt t).isSome && jsIncludes t [dqChar] then
    [⟨ln, str "CHAR literals must use single quotes ('), not double quotes (\")", Severity.error⟩]
  else []

/-- Matcher for `/([a-zA-Z_][a-zA-Z0-9_]*)\s*←\s*"[^"]*"/` at one position. -/
def tryCharAssignAt (l : List Char) : Option (List Char) :=
  if isIdentStart (l.headD ' ') then
    let name := l.takeWhile isWordChar
    match (l.dropWhile isWordChar).dropWhile jsIsSpace with
    | '←' :: r3 =>
      match r3.dropWhile jsIsSpace with
      | d :: r5 => if d == dqChar && r5.any (· == dqChar) then some name else none
      | [] => none
    | _ => none
  else none

/-- CHAR variable assigned a double-quoted literal (lines 413–427). -/
def charAssignErrs (t : List Char) (ln : Nat)
    (types : List (List Char × TypeInfo)) : List Diag :=
  if jsIncludes t (str "←") then
    match searchO tryCharAssignAt t with
    | some varName =>
      match mapGet types (strLower varName) with
      | some varType =>
        if strUpper varType.type == str "CHAR" then
          [⟨ln, str "CHAR variable '" ++ varName ++ str "' must use single quotes (') for character literals, not double quotes (\")", Severity.error⟩]
        else []
      | none => []
    | none => []
  else []

/-- Fuelled scanner for the global matches of
`/([a-zA-Z_][a-zA-Z0-9_]*)\[(\d+)\]/g`: (name, digit string) pairs; on a
failed attempt the start position advances by one character, on success it
advances past the match, as the JS regex engine does. -/
def scanArrAccessF : Nat → List Char → List (List Char × List Char)
  | 0, _ => []
  | _ + 1, [] => []
  | fuel + 1, c :: cs =>
    if isIdentStart c then
      let name := c :: cs.takeWhile isWordChar
      match cs.dropWhile isWordChar with
      | '[' :: r2 =>
        let ds := r2.takeWhile isDigitB
        if !ds.isEmpty then
          match r2.dropWhile isDigitB with
          | ']' :: r3 => (name, ds) :: scanArrAccessF fuel r3
          | _ => scanArrAccessF fuel cs
        else scanArrAccessF fuel cs
      | _ => scanArrAccessF fuel cs
    else scanArrAccessF fuel cs

/-- All array accesses `name[digits]` of the line. -/
def scanArrAccess (l : List Char) : List (List Char × List Char) :=
  scanArrAccessF l.length l

/-- The out-of-bounds message of lines 441–445. -/
def arrMsg (name : List Char) (i lo hi : Nat) : List Char :=
  str "Array index " ++ natDigits i ++ str " is out of bounds. Array '" ++
  name ++ str "' valid range is [" ++ natDigits lo ++ str ":" ++ natDigits hi ++ str "]"

/-- Array bound check (lines 429–450). -/
def arrayBoundsErrs (t : List Char) (ln : Nat)
    (arrays : List (List Char × ArrInfo)) : List Diag :=
  (scanArrAccess t).flatMap (fun m =>
    match mapGet arrays (strLower m.1) with
    | some arrayInfo =>
      if digitsToNat m.2 < arrayInfo.start || digitsToNat m.2 > arrayInfo.stop then
        [⟨ln, arrMsg m.1 (digitsToNat m.2) arrayInfo.start arrayInfo.stop, Severity.error⟩]
      else []
    | none => [])

/-- Matcher for the anchored `/^\s*([a-zA-Z_][a-zA-Z0-9_]*)\s*←/`. -/
def matchAssignTarget (t : List Char) : Option (List Char) :=
  let r1 := t.dropWhile jsIsSpace
  if isIdentStart (r1.headD ' ') then
    let name := r1.takeWhile isWordChar
    match (r1.dropWhile isWordChar).dropWhile jsIsSpace with
    | '←' :: _ => some name
    | _ => none
  else none

/-- Assignment-target declaration check (lines 452–466). -/
def assignTargetErrs (t : List Char) (ln : Nat) (vars : List (List Char)) : List Diag :=
  if jsIncludes t (str "←") then
    match matchAssignTarget t with
    | some varName =>
      if !vars.contains (strLower varName) then
        [⟨ln, str "Variable '" ++ varName ++ str "' must be declared before use", Severity.error⟩]
      else []
    | none => []
  else []

/-- Body of the usage-reference check (lines 471–492), on the line with
strings stripped. -/
def usageRefErrsCore (lineWithoutStrings : List Char) (ln : Nat)
    (vars : List (List Char)) : List Diag :=
  (identMatchesUnders lineWithoutStrings).flatMap (fun m =>
    if KEYWORDS.contains (strUpper m) then []
    else if [str "OUTPUT", str "INPUT", str "IF", str "WHILE", str "THEN"].contains (strUpper m) then []
    else if jsIncludes lineWithoutStrings (m ++ str "(") then []
    else if !vars.contains (strLower m) then
      [⟨ln, str "Variable '" ++ m ++ str "' must be declared before use", Severity.error⟩]
    else [])

/-- Guarded usage-reference check (lines 468–493): skipped when the line has
an unclosed string, and only run on lines mentioning OUTPUT/INPUT/IF/WHILE. -/
def usageRefErrs (t lineWithoutStrings : List Char) (hasUnclosedString : Bool)
    (ln : Nat) (vars : List (List Char)) : List Diag :=
  if !hasUnclosedString &&
      (jsIncludes t (str "OUTPUT") || jsIncludes t (str "INPUT") ||
       jsIncludes t (str "IF") || jsIncludes t (str "WHILE")) then
    usageRefErrsCore lineWithoutStrings ln vars
  else []

/-- Matcher for `/CALL\s+([a-zA-Z_][a-zA-Z0-9_]*)/i` at one position. -/
def tryCallAt (l : List Char) : Option (List Char) :=
  if hasPreCI l (str "CALL") then
    let r1 := l.drop 4
    if (r1.takeWhile jsIsSpace).isEmpty then none
    else
      let r2 := r1.dropWhile jsIsSpace
      if isIdentStart (r2.headD ' ') then some (r2.takeWhile isWordChar) else none
  else none

/-- CALL misuse check (lines 495–508). -/
def callErrs (t : List Char) (ln : Nat) (fns : List (List Char)) : List Diag :=
  if jsStartsWith t (str "CALL ") then
    match searchO tryCallAt t with
    | some calledName =>
      if fns.contains (strLower calledName) then
        [⟨ln, str "CALL should not be used with functions. Use function calls directly: " ++ calledName ++ str "(...)", Severity.error⟩]
      else []
    | none => []
  else []

/-- Matcher for `/OPENFILE\s+\S+\s+FOR\s+(\w+)/i` at one position. -/
def tryOpenfileAt (l : List Char) : Option (List Char) :=
  if hasPreCI l (str "OPENFILE") then
    let r1 := l.drop 8
    if (r1.takeWhile jsIsSpace).isEmpty then none
    else
      let r2 := r1.dropWhile jsIsSpace
      if (r2.takeWhile (fun c => !jsIsSpace c)).isEmpty then none
      else
        let r3 := r2.dropWhile (fun c => !jsIsSpace c)
        if (r3.takeWhile jsIsSpace).isEmpty then none
        else
          let r4 := r3.dropWhile jsIsSpace
          if hasPreCI r4 (str "FOR") then
            let r5 := r4.drop 3
            if (r5.takeWhile jsIsSpace).isEmpty then none
            else
              let mode := (r5.dropWhile jsIsSpace).takeWhile isWordChar
              if mode.isEmpty then none else some mode
          else none
  else none

/-- OPENFILE mode check (lines 510–530; the block at 532–537 is a no-op and
is omitted). -/
def openfileErrs (t : List Char) (ln : Nat) : List Diag :=
  if jsStartsWith t (str "OPENFILE") then
    match searchO tryOpenfileAt t with
    | some modeRaw =>
      if !([str "READ", str "WRITE", str "APPEND"].contains (strUpper modeRaw)) then
        [⟨ln, str "Invalid file mode '" ++ strUpper modeRaw ++ str "'. Valid modes are: READ, WRITE, APPEND", Severity.error⟩]
      else []
    | none =>
      if jsIncludes t (str "FOR") then
        [⟨ln, str "OPENFILE syntax should be: OPENFILE filename FOR mode (READ/write/append)", Severity.error⟩]
      else []
  else []

/-- The first line index strictly after `index` whose trimmed line starts
with ENDFOR (lines 540–543). -/
def findLaterEndfor (lines : List (List Char)) (index : Nat) : Option Nat :=
  (List.range lines.length).find? (fun j =>
    decide (j > index) && jsStartsWith (jsTrim (lines.getD j [])) (str "ENDFOR"))

/-- Wrong-loop-ending rule (lines 539–551). -/
def endforErrs (lines : List (List Char)) (index : Nat) (t : List Char) : List Diag :=
  if jsStartsWith t (str "FOR") then
    match findLaterEndfor lines index with
    | some endforLine => [⟨endforLine + 1, str "FOR loops must end with NEXT, not ENDFOR", Severity.error⟩]
    | none => []
  else []

/-- Matcher for `/FUNCTION\s+([a-zA-Z_][a-zA-Z0-9_]*)/i` at one position. -/
def tryFnNameAt (l : List Char) : Option (List Char) :=
  if hasPreCI l (str "FUNCTION") then
    let r1 := l.drop 8
    if (r1.takeWhile jsIsSpace).isEmpty then none
    else
      let r2 := r1.dropWhile jsIsSpace
      if isIdentStart (r2.headD ' ') then some (r2.takeWhile isWordChar) else none
  else none

/-- Matcher for `/KW\s+\w+\s*\((.*?)\)/i` at one position (`KW` is FUNCTION
or PROCEDURE; the lazy group captures up to the first closing paren). -/
def tryParamsAt (kw : List Char) (kwLen : Nat) (l : List Char) : Option (List Char) :=
  if hasPreCI l kw then
    let r1 := l.drop kwLen
    if (r1.takeWhile jsIsSpace).isEmpty then none
    else
      let r2 := r1.dropWhile jsIsSpace
      if (r2.takeWhile isWordChar).isEmpty then none
      else
        match (r2.dropWhile isWordChar).dropWhile jsIsSpace with
        | '(' :: r4 =>
          if r4.any (· == ')') then some (r4.takeWhile (· != ')')) else none
        | _ => none
  else none

/-- Parameter auto-declaration (lines 570–584 / 589–603). -/
def registerParams (content : List Char) (ln : Nat) (vars : List (List Char))
    (types : List (List Char × TypeInfo)) :
    List (List Char) × List (List Char × TypeInfo) :=
  if !(jsTrim content).isEmpty then
    (splitChar ',' content).foldl
      (fun (acc : List (List Char) × List (List Char × TypeInfo)) param =>
        match splitChar ':' (jsTrim param) with
        | [p1, p2] =>
          let paramName := jsTrim p1
          let paramType := jsTrim p2
          if !paramName.isEmpty && identTest paramName then
            (strLower paramName :: acc.1, mapSet acc.2 (strLower paramName) ⟨paramType, ln⟩)
          else acc
        | _ => acc)
      (vars, types)
  else (vars, types)

/-- FUNCTION handling (lines 553–585). -/
def functionHandling (t : List Char) (ln : Nat) (fns : List (List Char))
    (vars : List (List Char)) (types : List (List Char × TypeInfo)) :
    List Diag × List (List Char) × List (List Char) × List (List Char × TypeInfo) :=
  if jsStartsWith t (str "FUNCTION") then
    let e1 :=
      if !jsIncludes t (str "RETURNS") then
        [⟨ln, str "FUNCTION must specify return type with RETURNS", Severity.error⟩]
      else []
    let fns1 :=
      match searchO tryFnNameAt t with
      | some functionName => strLower functionName :: fns
      | none => fns
    match searchO (tryParamsAt (str "FUNCTION") 8) t with
    | some content =>
      let r := registerParams content ln vars types
      (e1, fns1, r.1, r.2)
    | none => (e1, fns1, vars, types)
  else ([], fns, vars, types)

/-- PROCEDURE handling (lines 587–604). -/
def procedureHandling (t : List Char) (ln : Nat) (vars : List (List Char))
    (types : List (List Char × TypeInfo)) :
    List (List Char) × List (List Char × TypeInfo) :=
  if jsStartsWith t (str "PROCEDURE") then
    match searchO (tryParamsAt (str "PROCEDURE") 9) t with
    | some content => registerParams content ln vars types
    | none => (vars, types)
  else (vars, types)

/-- The line with comments, double-quoted and single-quoted strings removed
(lines 193–199). -/
def stripLineStrings (t : List Char) : List Char :=
  stripQuoted sqChar (stripQuoted dqChar (cutLineComment t))

/-- The body of the per-line `forEach` (lines 68–605): all rule checks, in
source order, threading the mutable tables.  Blank and comment lines are
skipped.  The words of the line, the string-stripped line and the
unclosed-string flag are computed once, as in the source. -/
def processLine (lines : List (List Char)) (index : Nat) (st : St) : St :=
  let line := lines.getD index []
  let lineNumber := index + 1
  let t := jsTrim line
  if t.isEmpty || jsStartsWith t (str "//") then st
  else
    let words := jsSplitWs t
    let lineWithoutStrings := stripLineStrings t
    let hasUnclosedString := oddQuoteCount t
    let e2 := indentErrs line lineNumber
    let e3 := assignOpErrs t lineNumber
    let e4 := identShapeErrs t lineNumber
    let e5 := structureErrs t words lineNumber
    let firstWord := words.headD []
    let b := if allCapsTest firstWord then blockHandling firstWord lineNumber st.blockStack
             else ([], st.blockStack)
    let e7 := casingErrs lineWithoutStrings lineNumber
    let e8 := foreignKwErrs words lineNumber
    let d := declareHandling t lineNumber st.declaredVars st.varTypes st.arrayDecls
    let c := constantHandling t lineNumber d.2.1 d.2.2.1
    let e11 := arrayFormatErrs t lineNumber
    let e12 := forSyntaxErrs t lineNumber
    let e13 := caseOfErrs t lineNumber
    let e14 := whileParenErrs t lineNumber
    let e15 := unclosedStringErrs t lineNumber
    let e16 := charLiteralErrs t lineNumber
    let e17 := declCharErrs t lineNumber
    let e18 := charAssignErrs t lineNumber c.2.2
    let e19 := arrayBoundsErrs t lineNumber d.2.2.2
    let e20 := assignTargetErrs t lineNumber c.2.1
    let e21 := usageRefErrs t lineWithoutStrings hasUnclosedString lineNumber c.2.1
    let e22 := callErrs t lineNumber st.declaredFns
    let e23 := openfileErrs t lineNumber
    let e24 := endforErrs lines index t
    let f := functionHandling t lineNumber st.declaredFns c.2.1 c.2.2
    let p := procedureHandling t lineNumber f.2.2.1 f.2.2.2
    { errors := st.errors ++ e2 ++ e3 ++ e4 ++ e5 ++ b.1 ++ e7 ++ e8 ++ d.1 ++
        c.1 ++ e11 ++ e12 ++ e13 ++ e14 ++ e15 ++ e16 ++ e17 ++ e18 ++ e19 ++
        e20 ++ e21 ++ e22 ++ e23 ++ e24 ++ f.1
      blockStack := b.2
      arrayDecls := d.2.2.2
      declaredVars := p.1
      varTypes := p.2
      declaredFns := f.2.1 }

/-- The fresh state of one invocation (lines 45–51). -/
def initSt : St := ⟨[], [], [], [], [], []⟩

/-- The full line pass: fold `processLine` over all line indices in order. -/
def linePass (lines : List (List Char)) : St :=
  (List.range lines.length).foldl (fun st index => processLine lines index st) initSt

/-- Unmatched-opener sweep (lines 607–614): one error per entry left on the
block stack, in stack (array) order. -/
def unmatchedBlockErrs (stack : List BlockEntry) : List Diag :=
  stack.map (fun block =>
    ⟨block.line,
     str "Unmatched " ++ block.keyword ++ str " - missing " ++ (blockCloserOf block.keyword).getD [],
     Severity.error⟩)

/-- The closer/opener spellings of the extra-closer sweep (lines 621–649). -/
def extraCloserKinds : List (List Char × List Char) :=
  [(str "ENDIF", str "IF "), (str "ENDWHILE", str "WHILE "),
   (str "ENDPROCEDURE", str "PROCEDURE "), (str "ENDFUNCTION", str "FUNCTION "),
   (str "ENDCASE", str "CASE "), (str "ENDTYPE", str "TYPE ")]

/-- Extra-closer sweep (lines 616–660): for a line that is exactly one of
the six ENDxxx closers, count openers (prefix match with trailing space)
and closers (exact match) up to and including that line. -/
def extraCloserErrs (lines : List (List Char)) : List Diag :=
  (List.range lines.length).flatMap (fun index =>
    let trimmedLine := jsTrim (lines.getD index [])
    match extraCloserKinds.find? (fun p => p.1 == trimmedLine) with
    | some kind =>
      let openCount := ((List.range (index + 1)).filter (fun i =>
        jsStartsWith (jsTrim (lines.getD i [])) kind.2)).length
      let closeCount := ((List.range (index + 1)).filter (fun i =>
        jsTrim (lines.getD i []) == kind.1)).length
      if closeCount > openCount then
        [⟨index + 1, str "Extra " ++ kind.1 ++ str " - no matching opening block", Severity.error⟩]
      else []
    | none => [])

/-- Fuelled scanner for `/LENGTH\s*\(\s*([a-zA-Z_][a-zA-Z0-9_]*)\s*\)/gi`:
the captured variable names, left to right. -/
def scanLengthF : Nat → List Char → List (List Char)
  | 0, _ => []
  | _ + 1, [] => []
  | fuel + 1, c :: cs =>
    if hasPreCI (c :: cs) (str "LENGTH") then
      match ((c :: cs).drop 6).dropWhile jsIsSpace with
      | '(' :: r2 =>
        let r3 := r2.dropWhile jsIsSpace
        if isIdentStart (r3.headD ' ') then
          let name := r3.takeWhile isWordChar
          match (r3.dropWhile isWordChar).dropWhile jsIsSpace with
          | ')' :: r4 => name :: scanLengthF fuel r4
          | _ => scanLengthF fuel cs
        else scanLengthF fuel cs
      | _ => scanLengthF fuel cs
    else scanLengthF fuel cs

/-- LENGTH() type sweep (lines 662–688), over the final variable table. -/
def lengthSweepErrs (lines : List (List Char))
    (types : List (List Char × TypeInfo)) : List Diag :=
  (List.range lines.length).flatMap (fun index =>
    let trimmedLine := jsTrim (lines.getD index [])
    (scanLengthF trimmedLine.length trimmedLine).flatMap (fun varName =>
      match mapGet types (strLower varName) with
      | some varType =>
        if !jsIncludes (strUpper varType.type) (str "STRING") &&
            !jsIncludes (strUpper varType.type) (str "ARRAY") then
          [⟨index + 1, str "LENGTH() can only be used with STRING or ARRAY variables, not " ++ varType.type, Severity.error⟩]
        else []
      | none => []))

/-- The forward scan of the empty-loop sweep (lines 697–710): from line
index `j`, the first line whose trimmed form starts with `NEXT ` (with a
trailing space), bailing out on a control-structure opener. -/
def findNextFor (lines : List (List Char)) : Nat → Nat → Option Nat
  | 0, _ => none
  | fuel + 1, j =>
    if j < lines.length then
      let nextLine := jsTrim (lines.getD j [])
      if jsStartsWith nextLine (str "NEXT ") then some j
      else if jsStartsWith nextLine (str "FOR ") || jsStartsWith nextLine (str "WHILE ") ||
          jsStartsWith nextLine (str "IF ") || jsStartsWith nextLine (str "PROCEDURE ") ||
          jsStartsWith nextLine (str "FUNCTION ") then none
      else findNextFor lines fuel (j + 1)
    else none

/-- The empty-loop warning message (line 715). -/
def emptyLoopMsg : List Char :=
  str "Empty FOR loop body - consider adding statements or removing the loop"

/-- Empty-FOR-body sweep (lines 690–720): warn when the NEXT found by the
forward scan sits on the line immediately after the FOR. -/
def emptyLoopErrs (lines : List (List Char)) : List Diag :=
  (List.range lines.length).flatMap (fun index =>
    let trimmedLine := jsTrim (lines.getD index [])
    if jsStartsWith trimmedLine (str "FOR ") && jsIncludes trimmedLine (str " TO ") then
      match findNextFor lines lines.length (index + 1) with
      | some nextLineIndex =>
        if nextLineIndex == index + 1 then
          [⟨index + 1, emptyLoopMsg, Severity.warning⟩]
        else []
      | none => []
    else [])

/-- The deduplication key `` `${error.line}:${error.message}` `` (line 727). -/
def dedupKey (e : Diag) : List Char :=
  natDigits e.line ++ str ":" ++ e.message

/-- Deduplication worker (lines 722–732): keep the first diagnostic of each
key, remembering seen keys. -/
def dedupAux : List (List Char) → List Diag → List Diag
  | _, [] => []
  | seen, e :: rest =>
    if seen.contains (dedupKey e) then dedupAux seen rest
    else e :: dedupAux (dedupKey e :: seen) rest

/-- Deduplicate by (line, message). -/
def dedup (l : List Diag) : List Diag := dedupAux [] l

/-- The missing-content message (line 62). -/
def noContentMsg : List Char :=
  str "No pseudocode content found. Please write some pseudocode."

/-- The checker `checkSyntax` (lines 44–738): split into lines, short-circuit
when no non-blank non-comment line exists, otherwise run the line pass, the
four post-pass sweeps, deduplicate, and derive the verdict. -/
def syntaxCheck (code : String) : SyntaxCheckResult :=
  let lines := splitNl code.data
  let hasActualCode := lines.any (fun line =>
    let trimmed := jsTrim line
    !trimmed.isEmpty && !jsStartsWith trimmed (str "//"))
  if !hasActualCode then ⟨false, [⟨1, noContentMsg, Severity.error⟩]⟩
  else
    let st := linePass lines
    let errs := st.errors ++ unmatchedBlockErrs st.blockStack ++ extraCloserErrs lines ++
      lengthSweepErrs lines st.varTypes ++ emptyLoopErrs lines
    let uniqueErrors := dedup errs
    ⟨(uniqueErrors.filter (fun e => e.type == Severity.error)).length == 0, uniqueErrors⟩

/-!
Infrastructure for the verification: classification of diagnostics by the
first three characters of their message.  Inspection of every message
produced by the checker shows that exactly the `Unexpected <closer> without
matching opening` diagnostics start with `Une`, and exactly the
`Unmatched <opener> - missing <closer>` diagnostics start with `Unm`
(the other `U` messages start with `Unknown`, `Unclosed` and `Use`).
-/

/-- Does the diagnostic's message start with `Une` (unexpected closer)? -/
def isUne (d : Diag) : Bool := d.message.take 3 == str "Une"

/-- Does the diagnostic's message start with `Unm` (unmatched opener)? -/
def isUnm (d : Diag) : Bool := d.message.take 3 == str "Unm"

/-- A diagnostic that is neither an unexpected-closer nor an
unmatched-opener diagnostic. -/
def cleanD (d : Diag) : Prop := isUne d = false ∧ isUnm d = false

/-- All diagnostics of the list are clean. -/
def cleanL (l : List Diag) : Prop := ∀ d ∈ l, cleanD d

theorem cleanL_nil : cleanL [] := by
  intro d hd
  exact absurd hd (List.not_mem_nil d)

theorem cleanL_append {a b : List Diag} (ha : cleanL a) (hb : cleanL b) :
    cleanL (a ++ b) := by
  intro d hd
  rcases List.mem_append.mp hd with h | h
  · exact ha d h
  · exact hb d h

theorem take3_cat (s : String) (rest : List Char) (h : 3 ≤ (str s).length) :
    (str s ++ rest).take 3 = (str s).take 3 :=
  List.take_append_of_le_length h

theorem cleanD_lit (ln : Nat) (sev : Severity) (s : String)
    (h1 : ((str s).take 3 == str "Une") = false)
    (h2 : ((str s).take 3 == str "Unm") = false) :
    cleanD ⟨ln, str s, sev⟩ := ⟨h1, h2⟩

theorem cleanD_cat (ln : Nat) (sev : Severity) (s : String) (rest : List Char)
    (h : 3 ≤ (str s).length)
    (h1 : ((str s).take 3 == str "Une") = false)
    (h2 : ((str s).take 3 == str "Unm") = false) :
    cleanD ⟨ln, str s ++ rest, sev⟩ := by
  constructor
  · show ((str s ++ rest).take 3 == str "Une") = false
    rw [take3_cat s rest h]
    exact h1
  · show ((str s ++ rest).take 3 == str "Unm") = false
    rw [take3_cat s rest h]
    exact h2

theorem take3_ne_of_head_ne (c : Char) (rest : List Char) (c' : Char)
    (tail : List Char) (h : ¬c = c') : (c :: rest).take 3 ≠ c' :: tail := by
  rw [List.take_succ_cons]
  intro he
  injection he with h1 _
  exact h h1

/-- A message starting with a character other than `U` is clean. -/
theorem cleanD_head (ln : Nat) (sev : Severity) (c : Char) (rest : List Char)
    (h : ¬c = 'U') : cleanD ⟨ln, c :: rest, sev⟩ := by
  have hUne : str "Une" = 'U' :: str "ne" := by decide
  have hUnm : str "Unm" = 'U' :: str "nm" := by decide
  constructor
  · show ((c :: rest).take 3 == str "Une") = false
    rw [beq_eq_false_iff_ne, hUne]
    exact take3_ne_of_head_ne c rest 'U' (str "ne") h
  · show ((c :: rest).take 3 == str "Unm") = false
    rw [beq_eq_false_iff_ne, hUnm]
    exact take3_ne_of_head_ne c rest 'U' (str "nm") h

/-- A message starting with an apostrophe is clean. -/
theorem cleanD_apos (ln : Nat) (sev : Severity) (rest : List Char) :
    cleanD ⟨ln, str "'" ++ rest, sev⟩ := by
  have he : str "'" ++ rest = sqChar :: rest := by
    have h1 : str "'" = [sqChar] := by decide
    rw [h1, List.singleton_append]
  rw [he]
  exact cleanD_head ln sev sqChar rest (by decide)

theorem countP_une_eq_zero {l : List Diag} (h : cleanL l) :
    List.countP isUne l = 0 :=
  List.countP_eq_zero.mpr (fun d hd => by simp [(h d hd).1])

theorem countP_unm_eq_zero {l : List Diag} (h : cleanL l) :
    List.countP isUnm l = 0 :=
  List.countP_eq_zero.mpr (fun d hd => by simp [(h d hd).2])

theorem cleanL_indentErrs (line : List Char) (ln : Nat) : cleanL (indentErrs line ln) := by
  intro d hd
  unfold indentErrs at hd
  split at hd
  · rw [List.mem_singleton] at hd
    subst hd
    exact cleanD_lit ln _ _ (by decide) (by decide)
  · exact absurd hd (List.not_mem_nil d)

theorem cleanL_assignOpErrs (t : List Char) (ln : Nat) : cleanL (assignOpErrs t ln) := by
  intro d hd
  unfold assignOpErrs at hd
  split at hd
  · split at hd
    · rw [List.mem_singleton] at hd
      subst hd
      exact cleanD_lit ln _ _ (by decide) (by decide)
    · exact absurd hd (List.not_mem_nil d)
  · exact absurd hd (List.not_mem_nil d)

theorem cleanL_identShapeErrs (t : List Char) (ln : Nat) : cleanL (identShapeErrs t ln) := by
  intro d hd
  unfold identShapeErrs at hd
  rw [List.mem_flatMap] at hd
  obtain ⟨w, _, hd⟩ := hd
  split at hd
  · rcases List.mem_append.mp hd with h | h <;> split at h
    all_goals first
      | exact absurd h (List.not_mem_nil d)
      | (rw [List.mem_singleton] at h
         subst h
         simp only [List.append_assoc]
         exact cleanD_cat ln _ "Identifier '" _ (by decide) (by decide) (by decide))
  · exact absurd hd (List.not_mem_nil d)

theorem cleanL_structureErrs (t : List Char) (words : List (List Char)) (ln : Nat) :
    cleanL (structureErrs t words ln) := by
  intro d hd
  unfold structureErrs at hd
  split at hd
  · rw [List.mem_singleton] at hd
    subst hd
    exact cleanD_lit ln _ _ (by decide) (by decide)
  · exact absurd hd (List.not_mem_nil d)

theorem cleanL_casingErrs (lws : List Char) (ln : Nat) : cleanL (casingErrs lws ln) := by
  intro d hd
  unfold casingErrs at hd
  rw [List.mem_flatMap] at hd
  obtain ⟨w, _, hd⟩ := hd
  split at hd
  · rw [List.mem_singleton] at hd
    subst hd
    simp only [List.append_assoc]
    exact cleanD_cat ln _ "Keyword '" _ (by decide) (by decide) (by decide)
  · exact absurd hd (List.not_mem_nil d)

theorem cleanL_foreignKwErrs (words : List (List Char)) (ln : Nat) :
    cleanL (foreignKwErrs words ln) := by
  intro d hd
  unfold foreignKwErrs at hd
  rw [List.mem_flatMap] at hd
  obtain ⟨w, _, hd⟩ := hd
  split at hd
  · rw [List.mem_singleton] at hd
    subst hd
    simp only [List.append_assoc]
    exact cleanD_apos ln _ _
  · exact absurd hd (List.not_mem_nil d)

theorem cleanL_declVarStep (ln : Nat) (afterColon : List Char)
    (acc : List Diag × List (List Char) × List (List Char × TypeInfo))
    (varName : List Char) (hacc : cleanL acc.1) :
    cleanL ((declVarStep ln afterColon acc varName).1) := by
  intro d hd
  unfold declVarStep at hd
  split at hd
  · split at hd
    · rcases List.mem_append.mp hd with h | h
      · exact hacc d h
      · rw [List.mem_singleton] at h
        subst h
        simp only [List.append_assoc]
        exact cleanD_apos ln _ _
    · split at hd
      · split at hd
        · split at hd
          all_goals
            rcases List.mem_append.mp hd with h | h
            · exact hacc d h
            · rw [List.mem_singleton] at h
              subst h
              simp only [List.append_assoc]
              exact cleanD_cat ln _ "Variable '" _ (by decide) (by decide) (by decide)
        · rcases List.mem_append.mp hd with h | h
          · exact hacc d h
          · rw [List.mem_singleton] at h
            subst h
            simp only [List.append_assoc]
            exact cleanD_cat ln _ "Variable '" _ (by decide) (by decide) (by decide)
      · exact hacc d hd
  · exact hacc d hd

theorem cleanL_declFold (ln : Nat) (afterColon : List Char) :
    ∀ (names : List (List Char))
      (acc : List Diag × List (List Char) × List (List Char × TypeInfo)),
      cleanL acc.1 → cleanL ((names.foldl (declVarStep ln afterColon) acc).1) := by
  intro names
  induction names with
  | nil => intro acc h; exact h
  | cons n ns ih =>
    intro acc h
    exact ih (declVarStep ln afterColon acc n) (cleanL_declVarStep ln afterColon acc n h)

theorem cleanL_declareHandling (t : List Char) (ln : Nat) (vars : List (List Char))
    (types : List (List Char × TypeInfo)) (arrays : List (List Char × ArrInfo)) :
    cleanL ((declareHandling t ln vars types arrays).1) := by
  intro d hd
  unfold declareHandling at hd
  split at hd
  · exact absurd hd (List.not_mem_nil d)
  · split at hd
    · rw [List.mem_singleton] at hd
      subst hd
      exact cleanD_lit ln _ _ (by decide) (by decide)
    · simp only [] at hd
      split at hd
      · exact absurd hd (List.not_mem_nil d)
      · exact cleanL_declFold ln _ _ _ cleanL_nil d hd

theorem cleanL_constantHandling (t : List Char) (ln : Nat) (vars : List (List Char))
    (types : List (List Char × TypeInfo)) :
    cleanL ((constantHandling t ln vars types).1) := by
  intro d hd
  unfold constantHandling at hd
  split at hd
  · exact absurd hd (List.not_mem_nil d)
  · simp only [] at hd
    have hmem : d ∈ (if !jsIncludes t (str "=") then
        [(⟨ln, str "CONSTANT must be assigned a value using =", Severity.error⟩ : Diag)] else []) ++
        (if jsIncludes t (str "←") then
        [(⟨ln, str "CONSTANT declarations use = not ←", Severity.error⟩ : Diag)] else []) := by
      split at hd <;> exact hd
    rcases List.mem_append.mp hmem with h | h <;> split at h
    all_goals first
      | exact absurd h (List.not_mem_nil d)
      | (rw [List.mem_singleton] at h
         subst h
         exact cleanD_lit ln _ _ (by decide) (by decide))

theorem cleanL_arrayFormatErrs (t : List Char) (ln : Nat) : cleanL (arrayFormatErrs t ln) := by
  intro d hd
  unfold arrayFormatErrs at hd
  split at hd
  · rcases List.mem_append.mp hd with h | h <;> split at h
    all_goals first
      | exact absurd h (List.not_mem_nil d)
      | (rw [List.mem_singleton] at h
         subst h
         exact cleanD_lit ln _ _ (by decide) (by decide))
  · exact absurd hd (List.not_mem_nil d)

theorem cleanL_forSyntaxErrs (t : List Char) (ln : Nat) : cleanL (forSyntaxErrs t ln) := by
  intro d hd
  unfold forSyntaxErrs at hd
  split at hd
  · rw [List.mem_singleton] at hd
    subst hd
    exact cleanD_lit ln _ _ (by decide) (by decide)
  · exact absurd hd (List.not_mem_nil d)

theorem cleanL_caseOfErrs (t : List Char) (ln : Nat) : cleanL (caseOfErrs t ln) := by
  intro d hd
  unfold caseOfErrs at hd
  split at hd
  · rw [List.mem_singleton] at hd
    subst hd
    exact cleanD_lit ln _ _ (by decide) (by decide)
  · exact absurd hd (List.not_mem_nil d)

theorem cleanL_whileParenErrs (t : List Char) (ln : Nat) : cleanL (whileParenErrs t ln) := by
  intro d hd
  unfold whileParenErrs at hd
  split at hd
  · rw [List.mem_singleton] at hd
    subst hd
    exact cleanD_lit ln _ _ (by decide) (by decide)
  · exact absurd hd (List.not_mem_nil d)

theorem cleanL_unclosedStringErrs (t : List Char) (ln : Nat) :
    cleanL (unclosedStringErrs t ln) := by
  intro d hd
  unfold unclosedStringErrs at hd
  split at hd
  · rw [List.mem_singleton] at hd
    subst hd
    exact cleanD_lit ln _ _ (by decide) (by decide)
  · exact absurd hd (List.not_mem_nil d)

theorem cleanL_charLiteralErrs (t : List Char) (ln : Nat) : cleanL (charLiteralErrs t ln) := by
  intro d hd
  unfold charLiteralErrs at hd
  rw [List.mem_flatMap] at hd
  obtain ⟨w, _, hd⟩ := hd
  split at hd
  · rw [List.mem_singleton] at hd
    subst hd
    exact cleanD_lit ln _ _ (by decide) (by decide)
  · split at hd
    · rw [List.mem_singleton] at hd
      subst hd
      exact cleanD_lit ln _ _ (by decide) (by decide)
    · exact absurd hd (List.not_mem_nil d)

theorem cleanL_declCharErrs (t : List Char) (ln : Nat) : cleanL (declCharErrs t ln) := by
  intro d hd
  unfold declCharErrs at hd
  split at hd
  · rw [List.mem_singleton] at hd
    subst hd
    exact cleanD_lit ln _ _ (by decide) (by decide)
  · exact absurd hd (List.not_mem_nil d)

theorem cleanL_charAssignErrs (t : List Char) (ln : Nat)
    (types : List (List Char × TypeInfo)) : cleanL (charAssignErrs t ln types) := by
  intro d hd
  unfold charAssignErrs at hd
  split at hd
  · split at hd
    · split at hd
      · split at hd
        · rw [List.mem_singleton] at hd
          subst hd
          simp only [List.append_assoc]
          exact cleanD_cat ln _ "CHAR variable '" _ (by decide) (by decide) (by decide)
        · exact absurd hd (List.not_mem_nil d)
      · exact absurd hd (List.not_mem_nil d)
    · exact absurd hd (List.not_mem_nil d)
  · exact absurd hd (List.not_mem_nil d)

theorem cleanL_arrayBoundsErrs (t : List Char) (ln : Nat)
    (arrays : List (List Char × ArrInfo)) : cleanL (arrayBoundsErrs t ln arrays) := by
  intro d hd
  unfold arrayBoundsErrs at hd
  rw [List.mem_flatMap] at hd
  obtain ⟨m, _, hd⟩ := hd
  split at hd
  · split at hd
    · rw [List.mem_singleton] at hd
      subst hd
      unfold arrMsg
      simp only [List.append_assoc]
      exact cleanD_cat ln _ "Array index " _ (by decide) (by decide) (by decide)
    · exact absurd hd (List.not_mem_nil d)
  · exact absurd hd (List.not_mem_nil d)

theorem cleanL_assignTargetErrs (t : List Char) (ln : Nat) (vars : List (List Char)) :
    cleanL (assignTargetErrs t ln vars) := by
  intro d hd
  unfold assignTargetErrs at hd
  split at hd
  · split at hd
    · split at hd
      · rw [List.mem_singleton] at hd
        subst hd
        simp only [List.append_assoc]
        exact cleanD_cat ln _ "Variable '" _ (by decide) (by decide) (by decide)
      · exact absurd hd (List.not_mem_nil d)
    · exact absurd hd (List.not_mem_nil d)
  · exact absurd hd (List.not_mem_nil d)

theorem cleanL_usageRefErrsCore (lws : List Char) (ln : Nat) (vars : List (List Char)) :
    cleanL (usageRefErrsCore lws ln vars) := by
  intro d hd
  unfold usageRefErrsCore at hd
  rw [List.mem_flatMap] at hd
  obtain ⟨w, _, hd⟩ := hd
  split at hd
  · exact absurd hd (List.not_mem_nil d)
  · split at hd
    · exact absurd hd (List.not_mem_nil d)
    · split at hd
      · exact absurd hd (List.not_mem_nil d)
      · split at hd
        · rw [List.mem_singleton] at hd
          subst hd
          simp only [List.append_assoc]
          exact cleanD_cat ln _ "Variable '" _ (by decide) (by decide) (by decide)
        · exact absurd hd (List.not_mem_nil d)

theorem cleanL_usageRefErrs (t lws : List Char) (b : Bool) (ln : Nat)
    (vars : List (List Char)) : cleanL (usageRefErrs t lws b ln vars) := by
  intro d hd
  unfold usageRefErrs at hd
  split at hd
  · exact cleanL_usageRefErrsCore lws ln vars d hd
  · exact absurd hd (List.not_mem_nil d)

theorem cleanL_callErrs (t : List Char) (ln : Nat) (fns : List (List Char)) :
    cleanL (callErrs t ln fns) := by
  intro d hd
  unfold callErrs at hd
  split at hd
  · split at hd
    · split at hd
      · rw [List.mem_singleton] at hd
        subst hd
        simp only [List.append_assoc]
        exact cleanD_cat ln _ "CALL should not be used with functions. " _ (by decide) (by decide) (by decide)
      · exact absurd hd (List.not_mem_nil d)
    · exact absurd hd (List.not_mem_nil d)
  · exact absurd hd (List.not_mem_nil d)

theorem cleanL_openfileErrs (t : List Char) (ln : Nat) : cleanL (openfileErrs t ln) := by
  intro d hd
  unfold openfileErrs at hd
  split at hd
  · split at hd
    · split at hd
      · rw [List.mem_singleton] at hd
        subst hd
        simp only [List.append_assoc]
        exact cleanD_cat ln _ "Invalid file mode '" _ (by decide) (by decide) (by decide)
      · exact absurd hd (List.not_mem_nil d)
    · split at hd
      · rw [List.mem_singleton] at hd
        subst hd
        exact cleanD_lit ln _ _ (by decide) (by decide)
      · exact absurd hd (List.not_mem_nil d)
  · exact absurd hd (List.not_mem_nil d)

theorem cleanL_endforErrs (lines : List (List Char)) (index : Nat) (t : List Char) :
    cleanL (endforErrs lines index t) := by
  intro d hd
  unfold endforErrs at hd
  split at hd
  · split at hd
    · rw [List.mem_singleton] at hd
      subst hd
      exact cleanD_lit _ _ _ (by decide) (by decide)
    · exact absurd hd (List.not_mem_nil d)
  · exact absurd hd (List.not_mem_nil d)

theorem cleanL_functionHandling (t : List Char) (ln : Nat) (fns vars : List (List Char))
    (types : List (List Char × TypeInfo)) :
    cleanL ((functionHandling t ln fns vars types).1) := by
  intro d hd
  unfold functionHandling at hd
  split at hd
  · simp only [] at hd
    have hmem : d ∈ (if !jsIncludes t (str "RETURNS") then
        [(⟨ln, str "FUNCTION must specify return type with RETURNS", Severity.error⟩ : Diag)] else []) := by
      split at hd <;> exact hd
    split at hmem
    · rw [List.mem_singleton] at hmem
      subst hmem
      exact cleanD_lit ln _ _ (by decide) (by decide)
    · exact absurd hmem (List.not_mem_nil d)
  · exact absurd hd (List.not_mem_nil d)

set_option maxHeartbeats 1000000 in
/-- Everything the block-handling step emits is an `Unknown keyword`,
`Unexpected ...` or `Expected ...` diagnostic: never an `Unm` message. -/
theorem unm_blockHandling (fw : List Char) (ln : Nat) (stack : List BlockEntry) :
    ∀ d ∈ (blockHandling fw ln stack).1, isUnm d = false := by
  intro d hd
  unfold blockHandling at hd
  simp only [] at hd
  repeat' split at hd
  all_goals
    simp only [List.mem_append, List.mem_singleton, List.not_mem_nil, or_false, false_or] at hd
  all_goals first | subst hd | (rcases hd with hd | hd <;> subst hd)
  all_goals
    first
      | (show ((str "Unknown keyword: " ++ _).take 3 == str "Unm") = false
         rw [take3_cat _ _ (by decide)]; decide)
      | (show ((str "Unexpected " ++ _).take 3 == str "Unm") = false
         rw [take3_cat _ _ (by decide)]; decide)
      | (show ((str "Expected " ++ _).take 3 == str "Unm") = false
         rw [take3_cat _ _ (by decide)]; decide)

end PseudoChecker

namespace PseudoChecker

theorem countUnm_blockPart (c : Prop) [Decidable c] (fw : List Char) (ln : Nat)
    (s : List BlockEntry) :
    List.countP isUnm (if c then blockHandling fw ln s else ([], s)).1 = 0 := by
  split
  · exact List.countP_eq_zero.mpr (fun d hd => by simp [unm_blockHandling fw ln s d hd])
  · rfl

theorem countUnm_processLine (lines : List (List Char)) (i : Nat) (st : St) :
    List.countP isUnm (processLine lines i st).errors = List.countP isUnm st.errors := by
  unfold processLine
  simp only []
  split
  · rfl
  · simp only [List.countP_append]
    rw [countP_unm_eq_zero (cleanL_indentErrs _ _),
        countP_unm_eq_zero (cleanL_assignOpErrs _ _),
        countP_unm_eq_zero (cleanL_identShapeErrs _ _),
        countP_unm_eq_zero (cleanL_structureErrs _ _ _),
        countUnm_blockPart _ _ _ _,
        countP_unm_eq_zero (cleanL_casingErrs _ _),
        countP_unm_eq_zero (cleanL_foreignKwErrs _ _),
        countP_unm_eq_zero (cleanL_declareHandling _ _ _ _ _),
        countP_unm_eq_zero (cleanL_constantHandling _ _ _ _),
        countP_unm_eq_zero (cleanL_arrayFormatErrs _ _),
        countP_unm_eq_zero (cleanL_forSyntaxErrs _ _),
        countP_unm_eq_zero (cleanL_caseOfErrs _ _),
        countP_unm_eq_zero (cleanL_whileParenErrs _ _),
        countP_unm_eq_zero (cleanL_unclosedStringErrs _ _),
        countP_unm_eq_zero (cleanL_charLiteralErrs _ _),
        countP_unm_eq_zero (cleanL_declCharErrs _ _),
        countP_unm_eq_zero (cleanL_charAssignErrs _ _ _),
        countP_unm_eq_zero (cleanL_arrayBoundsErrs _ _ _),
        countP_unm_eq_zero (cleanL_assignTargetErrs _ _ _),
        countP_unm_eq_zero (cleanL_usageRefErrs _ _ _ _ _),
        countP_unm_eq_zero (cleanL_callErrs _ _ _),
        countP_unm_eq_zero (cleanL_openfileErrs _ _),
        countP_unm_eq_zero (cleanL_endforErrs _ _ _),
        countP_unm_eq_zero (cleanL_functionHandling _ _ _ _ _)]
    simp

/-- After the whole line pass, no `Unm` diagnostic has been emitted yet. -/
theorem countUnm_linePass (lines : List (List Char)) :
    List.countP isUnm (linePass lines).errors = 0 := by
  unfold linePass
  have h : ∀ (idxs : List Nat) (st : St),
      List.countP isUnm ((idxs.foldl (fun s i => processLine lines i s) st).errors) =
      List.countP isUnm st.errors := by
    intro idxs
    induction idxs with
    | nil => intro st; rfl
    | cons j js ih => intro st; rw [List.foldl_cons, ih, countUnm_processLine]
  rw [h]
  rfl

/-- Every diagnostic of the unmatched-opener sweep is an `Unm` diagnostic,
one per entry of the remaining stack. -/
theorem countUnm_unmatchedBlockErrs (stack : List BlockEntry) :
    List.countP isUnm (unmatchedBlockErrs stack) = stack.length := by
  have h1 : ∀ d ∈ unmatchedBlockErrs stack, isUnm d = true := by
    intro d hd
    unfold unmatchedBlockErrs at hd
    rw [List.mem_map] at hd
    obtain ⟨b, _, hb⟩ := hd
    subst hb
    show ((str "Unmatched " ++ _).take 3 == str "Unm") = true
    rw [take3_cat _ _ (by decide)]
    decide
  calc List.countP isUnm (unmatchedBlockErrs stack)
      = (unmatchedBlockErrs stack).length := List.countP_eq_length.mpr h1
    _ = stack.length := by unfold unmatchedBlockErrs; exact List.length_map _ _

/-- The closer keywords: the values of `BLOCK_KEYWORDS` (this list already
contains the bare `NEXT` and `UNTIL`). -/
def closerTokens : List (List Char) := BLOCK_KEYWORDS.map (·.2)

/-- The first whitespace-delimited token of the trimmed line (`words[0]`). -/
def firstTokenOf (line : List Char) : List Char :=
  (jsSplitWs (jsTrim line)).headD []

theorem jsSplitWs_headD (l : List Char) :
    (jsSplitWs l).headD [] = l.takeWhile (fun c => !jsIsSpace c) := by
  unfold jsSplitWs
  cases l with
  | nil => rfl
  | cons c cs =>
    show (wsSplitF (cs.length + 1) (c :: cs)).headD [] = _
    simp only [wsSplitF]
    split <;> rfl

theorem startsWith_cons {l p : List Char} {c : Char}
    (h : jsStartsWith l (c :: p) = true) : ∃ l', l = c :: l' := by
  cases l with
  | nil => exact absurd h (by simp [jsStartsWith, hasPre])
  | cons b bs =>
    refine ⟨bs, ?_⟩
    have hb : (c == b) = true := by
      by_contra hne
      simp [jsStartsWith, hasPre, Bool.and_eq_true] at h
      exact hne (by simp [h.1])
    rw [show c = b from by simpa using hb]

theorem closer_facts (fw : List Char) (hfw : fw ∈ closerTokens) :
    KEYWORDS.contains fw = true ∧ blockCloserOf fw = none ∧
    allCapsTest fw = true ∧ fw ≠ [] ∧ (fw.headD ' ') ≠ '/' := by
  fin_cases hfw <;> refine ⟨by decide, by decide, by decide, by decide, by decide⟩

theorem countUne_blockHandling_closer (fw : List Char) (hfw : fw ∈ closerTokens) (ln : Nat) :
    List.countP isUne (blockHandling fw ln []).1 = 1 := by
  fin_cases hfw <;> rfl

set_option maxHeartbeats 1000000 in
theorem countUne_processLine_closer (lines : List (List Char)) (i : Nat) (st : St)
    (hstack : st.blockStack = [])
    (hfw : (jsSplitWs (jsTrim (lines.getD i []))).headD [] ∈ closerTokens) :
    List.countP isUne (processLine lines i st).errors =
      List.countP isUne st.errors + 1 := by
  have hhead := jsSplitWs_headD (jsTrim (lines.getD i []))
  obtain ⟨hkw, hcl, hcaps, hne, hhd⟩ := closer_facts _ hfw
  have hgate : ((jsTrim (lines.getD i [])).isEmpty ||
      jsStartsWith (jsTrim (lines.getD i [])) (str "//")) = false := by
    rw [Bool.or_eq_false_iff]
    constructor
    · cases hie : (jsTrim (lines.getD i [])).isEmpty
      · rfl
      · exfalso
        rw [List.isEmpty_iff] at hie
        rw [hie] at hfw
        exact absurd hfw (by decide)
    · cases hsw : jsStartsWith (jsTrim (lines.getD i [])) (str "//")
      · rfl
      · exfalso
        have h2 : jsStartsWith (jsTrim (lines.getD i [])) ('/' :: str "/") = true := by
          rw [show ('/' :: str "/") = str "//" from by decide]
          exact hsw
        obtain ⟨l', hl'⟩ := startsWith_cons h2
        apply hhd
        rw [hhead, hl', List.takeWhile_cons_of_pos (by decide)]
        rfl
  unfold processLine
  simp only []
  rw [if_neg (by rw [hgate]; simp)]
  simp only [List.countP_append]
  rw [hstack, if_pos hcaps, countUne_blockHandling_closer _ hfw,
      countP_une_eq_zero (cleanL_indentErrs _ _),
      countP_une_eq_zero (cleanL_assignOpErrs _ _),
      countP_une_eq_zero (cleanL_identShapeErrs _ _),
      countP_une_eq_zero (cleanL_structureErrs _ _ _),
      countP_une_eq_zero (cleanL_casingErrs _ _),
      countP_une_eq_zero (cleanL_foreignKwErrs _ _),
      countP_une_eq_zero (cleanL_declareHandling _ _ _ _ _),
      countP_une_eq_zero (cleanL_constantHandling _ _ _ _),
      countP_une_eq_zero (cleanL_arrayFormatErrs _ _),
      countP_une_eq_zero (cleanL_forSyntaxErrs _ _),
      countP_une_eq_zero (cleanL_caseOfErrs _ _),
      countP_une_eq_zero (cleanL_whileParenErrs _ _),
      countP_une_eq_zero (cleanL_unclosedStringErrs _ _),
      countP_une_eq_zero (cleanL_charLiteralErrs _ _),
      countP_une_eq_zero (cleanL_declCharErrs _ _),
      countP_une_eq_zero (cleanL_charAssignErrs _ _ _),
      countP_une_eq_zero (cleanL_arrayBoundsErrs _ _ _),
      countP_une_eq_zero (cleanL_assignTargetErrs _ _ _),
      countP_une_eq_zero (cleanL_usageRefErrs _ _ _ _ _),
      countP_une_eq_zero (cleanL_callErrs _ _ _),
      countP_une_eq_zero (cleanL_openfileErrs _ _),
      countP_une_eq_zero (cleanL_endforErrs _ _ _),
      countP_une_eq_zero (cleanL_functionHandling _ _ _ _ _)]

theorem blockHandling_for_next (ln j : Nat) (s : List BlockEntry) :
    blockHandling (str "NEXT") ln (s ++ [⟨str "FOR", j⟩]) = ([], s) := by
  unfold blockHandling
  simp [List.getLastD_concat, List.dropLast_concat, show blockCloserOf (str "NEXT") = none from by decide,
        show (BLOCK_KEYWORDS.map (·.2)).contains (str "NEXT") = true from by decide,
        show KEYWORDS.contains (str "NEXT") = true from by decide,
        show blockCloserOf (str "FOR") = some (str "NEXT") from by decide]
  exact fun h => by decide

theorem blockHandling_repeat_until (ln j : Nat) (s : List BlockEntry) :
    blockHandling (str "UNTIL") ln (s ++ [⟨str "REPEAT", j⟩]) = ([], s) := by
  unfold blockHandling
  simp [List.getLastD_concat, List.dropLast_concat, show blockCloserOf (str "UNTIL") = none from by decide,
        show (BLOCK_KEYWORDS.map (·.2)).contains (str "UNTIL") = true from by decide,
        show KEYWORDS.contains (str "UNTIL") = true from by decide,
        show blockCloserOf (str "REPEAT") = some (str "UNTIL") from by decide]
  exact fun h => by decide

/-- C3: block matching obeys a stack discipline: (i) a line whose first
token is a recognized closing keyword (including the bare NEXT / UNTIL,
which are the closers of FOR and REPEAT), processed while the block stack
is empty, yields exactly one "unexpected closer" diagnostic; (ii) after the
full line pass the number of "unmatched opener" diagnostics emitted by the
sweep equals the number of opener entries left on the block stack; and
(iii) FOR/NEXT and REPEAT/UNTIL pairings are accepted as valid closings
(the top entry is popped with no diagnostic). -/
theorem c3_block_stack_discipline :
    (∀ (lines : List (List Char)) (i : Nat) (st : St),
        st.blockStack = [] →
        firstTokenOf (lines.getD i []) ∈ closerTokens →
        List.countP isUne (processLine lines i st).errors =
          List.countP isUne st.errors + 1) ∧
    (∀ lines : List (List Char),
        List.countP isUnm ((linePass lines).errors ++
          unmatchedBlockErrs (linePass lines).blockStack) =
        (linePass lines).blockStack.length) ∧
    (∀ (ln j : Nat) (s : List BlockEntry),
        blockHandling (str "NEXT") ln (s ++ [⟨str "FOR", j⟩]) = ([], s) ∧
        blockHandling (str "UNTIL") ln (s ++ [⟨str "REPEAT", j⟩]) = ([], s)) := by
  refine ⟨?_, ?_, ?_⟩
  · intro lines i st h1 h2
    exact countUne_processLine_closer lines i st h1 h2
  · intro lines
    rw [List.countP_append, countUnm_linePass, countUnm_unmatchedBlockErrs, Nat.zero_add]
  · intro ln j s
    exact ⟨blockHandling_for_next ln j s, blockHandling_repeat_until ln j s⟩

/-- Witness for C3 at a concrete input: the one-line program `NEXT`. -/
theorem c3_block_stack_discipline_witness :
    (initSt.blockStack = [] ∧ firstTokenOf ([str "NEXT"].getD 0 []) ∈ closerTokens) ∧
    List.countP isUne (processLine [str "NEXT"] 0 initSt).errors =
      List.countP isUne initSt.errors + 1 :=
  ⟨⟨rfl, by decide⟩, c3_block_stack_discipline.1 [str "NEXT"] 0 initSt rfl (by decide)⟩

/-- C1: the verdict is derived: valid iff no returned diagnostic has
severity error (warnings never affect validity). -/
theorem c1_isValid_iff_no_errors (code : String) :
    (syntaxCheck code).isValid = true ↔
      ∀ d ∈ (syntaxCheck code).errors, d.type ≠ Severity.error := by
  unfold syntaxCheck
  simp only []
  split
  · simp
  · simp only [List.length_eq_zero]
    rw [beq_iff_eq, List.length_eq_zero, List.filter_eq_nil_iff]
    constructor
    · intro h d hd
      have := h d hd
      simp at this
      exact this
    · intro h d hd
      simp [h d hd]

/-- C2: an input whose every line is blank or a comment yields exactly the
single missing-content error and an invalid verdict. -/
theorem c2_empty_input (code : String)
    (h : ∀ line ∈ splitNl code.data,
      jsTrim line = [] ∨ jsStartsWith (jsTrim line) (str "//") = true) :
    syntaxCheck code = ⟨false, [⟨1, noContentMsg, Severity.error⟩]⟩ := by
  have hno : (splitNl code.data).any (fun line =>
      !(jsTrim line).isEmpty && !jsStartsWith (jsTrim line) (str "//")) = false := by
    rw [List.any_eq_false]
    intro line hl
    rcases h line hl with h1 | h1
    · simp [h1]
    · simp [h1]
  unfold syntaxCheck
  simp only []
  rw [if_pos (by rw [hno]; rfl)]

/-- Witness for C2: a comment line followed by a blank line. -/
theorem c2_empty_input_witness :
    (∀ line ∈ splitNl (str "// only a comment\n   "),
      jsTrim line = [] ∨ jsStartsWith (jsTrim line) (str "//") = true) ∧
    syntaxCheck "// only a comment\n   " = ⟨false, [⟨1, noContentMsg, Severity.error⟩]⟩ :=
  ⟨by decide, c2_empty_input _ (by decide)⟩

/-- C5: the three-line example program is valid with zero diagnostics. -/
theorem c5_example_valid :
    syntaxCheck "DECLARE x: INTEGER\nx ← 5\nOUTPUT x" = ⟨true, []⟩ := by decide

theorem mem_dedupAux_key : ∀ (seen : List (List Char)) (l : List Diag) (d : Diag),
    d ∈ dedupAux seen l → dedupKey d ∉ seen := by
  intro seen l
  induction l generalizing seen with
  | nil => intro d hd; exact absurd hd (List.not_mem_nil d)
  | cons e rest ih =>
    intro d hd
    unfold dedupAux at hd
    split at hd
    · exact ih seen d hd
    · rw [List.mem_cons] at hd
      rcases hd with hd | hd
      · subst hd
        intro hmem
        rename_i hc
        exact hc (List.elem_iff.mpr hmem)
      · intro hmem
        exact ih (dedupKey e :: seen) d hd (List.mem_cons_of_mem _ hmem)

theorem pairwise_dedupAux : ∀ (seen : List (List Char)) (l : List Diag),
    (dedupAux seen l).Pairwise (fun a b => dedupKey a ≠ dedupKey b) := by
  intro seen l
  induction l generalizing seen with
  | nil => exact List.Pairwise.nil
  | cons e rest ih =>
    unfold dedupAux
    split
    · exact ih seen
    · rw [List.pairwise_cons]
      refine ⟨?_, ih _⟩
      intro b hb heq
      exact mem_dedupAux_key _ _ _ hb (heq ▸ List.mem_cons_self _ _)

theorem dedupAux_id : ∀ (seen : List (List Char)) (l : List Diag),
    (∀ d ∈ l, dedupKey d ∉ seen) →
    l.Pairwise (fun a b => dedupKey a ≠ dedupKey b) →
    dedupAux seen l = l := by
  intro seen l
  induction l generalizing seen with
  | nil => intro _ _; rfl
  | cons e rest ih =>
    intro hseen hp
    unfold dedupAux
    rw [if_neg]
    · congr 1
      apply ih
      · intro d hd hmem
        rcases List.mem_cons.mp hmem with h1 | h1
        · exact (List.pairwise_cons.mp hp).1 d hd h1.symm
        · exact hseen d (List.mem_cons_of_mem _ hd) h1
      · exact (List.pairwise_cons.mp hp).2
    · intro hc
      exact hseen e (List.mem_cons_self e rest) (List.elem_iff.mp hc)

/-- Deduplication is idempotent. -/
theorem dedup_idem (l : List Diag) : dedup (dedup l) = dedup l := by
  unfold dedup
  apply dedupAux_id
  · intro d _ hmem
    exact absurd hmem (List.not_mem_nil _)
  · exact pairwise_dedupAux [] l

/-- C9: the returned diagnostics never contain two entries with the same
line and message, and re-deduplicating the returned sequence is the
identity. -/
theorem c9_dedup_idempotent (code : String) :
    ((syntaxCheck code).errors).Pairwise
      (fun a b => ¬(a.line = b.line ∧ a.message = b.message)) ∧
    dedup (syntaxCheck code).errors = (syntaxCheck code).errors := by
  have hkey : ∀ a b : Diag, a.line = b.line → a.message = b.message →
      dedupKey a = dedupKey b := by
    intro a b h1 h2
    unfold dedupKey
    rw [h1, h2]
  constructor
  · unfold syntaxCheck
    simp only []
    split
    · simp
    · refine List.Pairwise.imp ?_ (pairwise_dedupAux [] _)
      intro a b hne hand
      exact hne (hkey a b hand.1 hand.2)
  · unfold syntaxCheck
    simp only []
    split
    · rfl
    · exact dedup_idem _

/-- C6: a token of the comment- and string-stripped line whose upper-cased
form is a recognized keyword but which is not itself upper-cased yields the
keyword-casing error; and the all-lowercase example is invalid with exactly
the two casing errors. -/
theorem c6_keyword_casing :
    (∀ (t : List Char) (ln : Nat) (w : List Char),
        w ∈ jsSplitWs (stripLineStrings t) →
        KEYWORDS.contains (strUpper w) = true →
        w ≠ strUpper w →
        (⟨ln, str "Keyword '" ++ w ++ str "' should be uppercase: '" ++ strUpper w ++ str "'",
          Severity.error⟩ : Diag) ∈ casingErrs (stripLineStrings t) ln) ∧
    syntaxCheck "declare x: integer" =
      ⟨false,
       [⟨1, str "Keyword '" ++ str "declare" ++ str "' should be uppercase: '" ++ str "DECLARE" ++ str "'", Severity.error⟩,
        ⟨1, str "Keyword '" ++ str "integer" ++ str "' should be uppercase: '" ++ str "INTEGER" ++ str "'", Severity.error⟩]⟩ := by
  constructor
  · intro t ln w hw hkw hne
    unfold casingErrs
    rw [List.mem_flatMap]
    refine ⟨w, hw, ?_⟩
    rw [if_pos]
    · exact List.mem_singleton.mpr rfl
    · have hlen : w.length > 0 := by
        cases w with
        | nil => exact absurd rfl hne
        | cons c cs => exact Nat.succ_pos _
      have hmem : strUpper w ∈ KEYWORDS := List.elem_iff.mp hkw
      simp [hkw, hmem, hlen, bne_iff_ne, hne]
  · decide

/-- Witness for C6 at a concrete stripped line. -/
theorem c6_keyword_casing_witness :
    (str "while" ∈ jsSplitWs (stripLineStrings (str "while x")) ∧
     KEYWORDS.contains (strUpper (str "while")) = true ∧ str "while" ≠ strUpper (str "while")) ∧
    (⟨7, str "Keyword '" ++ str "while" ++ str "' should be uppercase: '" ++ strUpper (str "while") ++ str "'",
      Severity.error⟩ : Diag) ∈ casingErrs (stripLineStrings (str "while x")) 7 :=
  ⟨⟨by decide, by decide, by decide⟩,
   c6_keyword_casing.1 (str "while x") 7 (str "while") (by decide) (by decide) (by decide)⟩

/-- C7: a line with an odd number of double quotes gets the unclosed-string
error, and the guarded usage-reference check contributes nothing for that
line (the flag passed by the line driver is `oddQuoteCount t`). -/
theorem c7_unclosed_string (t lws : List Char) (ln : Nat) (vars : List (List Char))
    (h : oddQuoteCount t = true) :
    unclosedStringErrs t ln =
      [⟨ln, str "Unclosed string - missing closing quote", Severity.error⟩] ∧
    usageRefErrs t lws (oddQuoteCount t) ln vars = [] := by
  constructor
  · unfold unclosedStringErrs
    rw [if_pos h]
  · unfold usageRefErrs
    rw [if_neg]
    rw [h]
    simp

/-- Witness for C7: the line `OUTPUT "x` with a single double quote. -/
theorem c7_unclosed_string_witness :
    oddQuoteCount (str "OUTPUT \"x") = true ∧
    (unclosedStringErrs (str "OUTPUT \"x") 1 =
      [⟨1, str "Unclosed string - missing closing quote", Severity.error⟩] ∧
     usageRefErrs (str "OUTPUT \"x") (stripLineStrings (str "OUTPUT \"x"))
       (oddQuoteCount (str "OUTPUT \"x")) 1 [] = []) :=
  ⟨by decide,
   c7_unclosed_string (str "OUTPUT \"x") (stripLineStrings (str "OUTPUT \"x")) 1 [] (by decide)⟩

/-- Counterexample to C8 as stated: in `FOR i ← 1 TO 3` / (blank) / `NEXT i`
the FOR line's next non-blank line is its own NEXT closer and the forward
scan does find it (at index 2), yet the checker emits no empty-loop warning,
because the code requires the NEXT at exactly the immediately following
line index. -/
theorem c8_counterexample :
    jsStartsWith (jsTrim ((splitNl (str "FOR i ← 1 TO 3\n\nNEXT i")).getD 0 [])) (str "FOR ") = true ∧
    jsIncludes (jsTrim ((splitNl (str "FOR i ← 1 TO 3\n\nNEXT i")).getD 0 [])) (str " TO ") = true ∧
    jsTrim ((splitNl (str "FOR i ← 1 TO 3\n\nNEXT i")).getD 1 []) = [] ∧
    jsStartsWith (jsTrim ((splitNl (str "FOR i ← 1 TO 3\n\nNEXT i")).getD 2 [])) (str "NEXT ") = true ∧
    findNextFor (splitNl (str "FOR i ← 1 TO 3\n\nNEXT i"))
      (splitNl (str "FOR i ← 1 TO 3\n\nNEXT i")).length 1 = some 2 ∧
    ∀ d ∈ (syntaxCheck "FOR i ← 1 TO 3\n\nNEXT i").errors, d.message ≠ emptyLoopMsg := by
  decide

/-- C8 (amended): a FOR...TO line whose immediately following line's trimmed
form starts with `NEXT ` receives the empty-loop warning. -/
theorem c8_empty_loop_amended (lines : List (List Char)) (i : Nat)
    (h1 : jsStartsWith (jsTrim (lines.getD i [])) (str "FOR ") = true)
    (h2 : jsIncludes (jsTrim (lines.getD i [])) (str " TO ") = true)
    (h3 : jsStartsWith (jsTrim (lines.getD (i + 1) [])) (str "NEXT ") = true) :
    (⟨i + 1, emptyLoopMsg, Severity.warning⟩ : Diag) ∈ emptyLoopErrs lines := by
  have hlt : i + 1 < lines.length := by
    by_contra hge
    rw [not_lt] at hge
    rw [List.getD_eq_getElem?_getD, List.getElem?_eq_none hge] at h3
    exact absurd h3 (by decide)
  have hi : i < lines.length := Nat.lt_of_succ_lt hlt
  have hfind : findNextFor lines lines.length (i + 1) = some (i + 1) := by
    obtain ⟨k, hk⟩ : ∃ k, lines.length = k + 1 := ⟨lines.length - 1, by omega⟩
    rw [hk]
    rw [findNextFor]
    rw [if_pos (by omega : i + 1 < lines.length)]
    simp only []
    rw [if_pos h3]
  unfold emptyLoopErrs
  rw [List.mem_flatMap]
  refine ⟨i, List.mem_range.mpr hi, ?_⟩
  rw [if_pos (by rw [h1, h2]; rfl), hfind]
  simp

/-- Witness for the amended C8: `FOR i ← 1 TO 3` immediately followed by
`NEXT i`. -/
theorem c8_empty_loop_amended_witness :
    (jsStartsWith (jsTrim ((splitNl (str "FOR i ← 1 TO 3\nNEXT i")).getD 0 [])) (str "FOR ") = true ∧
     jsIncludes (jsTrim ((splitNl (str "FOR i ← 1 TO 3\nNEXT i")).getD 0 [])) (str " TO ") = true ∧
     jsStartsWith (jsTrim ((splitNl (str "FOR i ← 1 TO 3\nNEXT i")).getD 1 [])) (str "NEXT ") = true) ∧
    (⟨1, emptyLoopMsg, Severity.warning⟩ : Diag) ∈
      emptyLoopErrs (splitNl (str "FOR i ← 1 TO 3\nNEXT i")) :=
  ⟨⟨by decide, by decide, by decide⟩,
   c8_empty_loop_amended (splitNl (str "FOR i ← 1 TO 3\nNEXT i")) 0
     (by decide) (by decide) (by decide)⟩

theorem toNat_ofNat_small (n : Nat) (h : n < 55296) : (Char.ofNat n).toNat = n := by
  unfold Char.ofNat
  rw [dif_pos (Or.inl h)]
  rfl

theorem natDigitsF_digits : ∀ (fuel n : Nat), ∀ c ∈ natDigitsF fuel n, isDigitB c = true := by
  intro fuel
  induction fuel with
  | zero => intro n c hc; exact absurd hc (List.not_mem_nil c)
  | succ f ih =>
    intro n c hc
    unfold natDigitsF at hc
    split at hc
    · rw [List.mem_singleton] at hc
      subst hc
      unfold isDigitB
      rw [toNat_ofNat_small _ (by omega)]
      simp only [Bool.and_eq_true, decide_eq_true_eq]
      omega
    · rcases List.mem_append.mp hc with h | h
      · exact ih (n / 10) c h
      · rw [List.mem_singleton] at h
        subst h
        unfold isDigitB
        rw [toNat_ofNat_small _ (by omega)]
        simp only [Bool.and_eq_true, decide_eq_true_eq]
        omega

theorem natDigits_digits (n : Nat) : ∀ c ∈ natDigits n, isDigitB c = true :=
  natDigitsF_digits (n + 1) n

theorem digitsToNat_append_singleton (l : List Char) (c : Char) :
    digitsToNat (l ++ [c]) = 10 * digitsToNat l + (c.toNat - 48) := by
  unfold digitsToNat
  rw [List.foldl_append]
  rfl

theorem digitsToNat_natDigitsF : ∀ (fuel n : Nat), n < fuel →
    digitsToNat (natDigitsF fuel n) = n := by
  intro fuel
  induction fuel with
  | zero => intro n h; omega
  | succ f ih =>
    intro n h
    unfold natDigitsF
    split
    · show digitsToNat [Char.ofNat (48 + n)] = n
      unfold digitsToNat
      simp only [List.foldl_cons, List.foldl_nil]
      rw [toNat_ofNat_small _ (by omega)]
      omega
    · rw [digitsToNat_append_singleton, ih (n / 10) (by omega),
          toNat_ofNat_small _ (by omega)]
      omega

theorem digitsToNat_natDigits (n : Nat) : digitsToNat (natDigits n) = n :=
  digitsToNat_natDigitsF (n + 1) n (by omega)

theorem natDigits_inj {a b : Nat} (h : natDigits a = natDigits b) : a = b := by
  have h2 := congrArg digitsToNat h
  rwa [digitsToNat_natDigits, digitsToNat_natDigits] at h2

theorem takeWhile_all_cons_append (p : Char → Bool) :
    ∀ (l₁ : List Char) (c : Char) (l₂ : List Char),
    (∀ x ∈ l₁, p x = true) → p c = false →
    (l₁ ++ c :: l₂).takeWhile p = l₁ ∧ (l₁ ++ c :: l₂).dropWhile p = c :: l₂ := by
  intro l₁
  induction l₁ with
  | nil =>
    intro c l₂ _ hc
    constructor
    · rw [List.nil_append, List.takeWhile_cons_of_neg (by simp [hc])]
    · rw [List.nil_append, List.dropWhile_cons_of_neg (by simp [hc])]
  | cons x xs ih =>
    intro c l₂ hall hc
    have hx : p x = true := hall x (List.mem_cons_self x xs)
    have hrest := ih c l₂ (fun y hy => hall y (List.mem_cons_of_mem _ hy)) hc
    constructor
    · rw [List.cons_append, List.takeWhile_cons_of_pos hx, hrest.1]
    · rw [List.cons_append, List.dropWhile_cons_of_pos hx, hrest.2]

theorem wordChar_of_identStart (c : Char) (h : isIdentStart c = true) :
    isWordChar c = true := by
  simp only [isIdentStart, isAlphaB, isWordChar, Bool.or_eq_true, Bool.and_eq_true,
    decide_eq_true_eq, beq_iff_eq] at h ⊢
  omega

theorem scanArrAccessF_shape : ∀ (fuel : Nat) (l : List Char) (nm ds : List Char),
    (nm, ds) ∈ scanArrAccessF fuel l →
    (∀ c ∈ nm, isWordChar c = true) ∧ nm ≠ [] ∧
    (∀ c ∈ ds, isDigitB c = true) ∧ ds ≠ [] := by
  intro fuel
  induction fuel with
  | zero => intro l nm ds h; exact absurd h (List.not_mem_nil _)
  | succ f ih =>
    intro l nm ds h
    cases l with
    | nil => exact absurd h (List.not_mem_nil _)
    | cons c cs =>
      unfold scanArrAccessF at h
      simp only [] at h
      repeat' split at h
      all_goals
        first
          | exact ih _ _ _ h
          | (rw [List.mem_cons] at h
             rcases h with h | h
             · rw [Prod.mk.injEq] at h
               obtain ⟨h1, h2⟩ := h
               subst h1
               subst h2
               refine ⟨?_, by simp, fun x hx => List.mem_takeWhile_imp hx, ?_⟩
               · intro x hx
                 rcases List.mem_cons.mp hx with hx | hx
                 · subst hx
                   exact wordChar_of_identStart _ (by assumption)
                 · exact List.mem_takeWhile_imp hx
               · intro hnil
                 simp only [hnil, List.isEmpty_nil, Bool.not_true] at *
                 exact absurd ‹false = true› (by decide)
             · exact ih _ _ _ h)

/-- Two out-of-bounds messages are equal only when their rendered index and
array name agree (the index digits are followed by a space, the name — a
run of word characters — by an apostrophe, so both parse unambiguously). -/
theorem arrMsg_inj (nm nm' : List Char) (i i' lo hi lo' hi' : Nat)
    (hw : ∀ c ∈ nm, isWordChar c = true) (hw' : ∀ c ∈ nm', isWordChar c = true)
    (h : arrMsg nm i lo hi = arrMsg nm' i' lo' hi') : i = i' ∧ nm = nm' := by
  unfold arrMsg at h
  simp only [List.append_assoc] at h
  have h1 := List.append_cancel_left h
  simp only [show str " is out of bounds. Array '" =
    ' ' :: str "is out of bounds. Array '" from by decide, List.cons_append] at h1
  have hti := congrArg (List.takeWhile isDigitB) h1
  rw [(takeWhile_all_cons_append isDigitB (natDigits i) ' ' _ (natDigits_digits i) (by decide)).1,
      (takeWhile_all_cons_append isDigitB (natDigits i') ' ' _ (natDigits_digits i') (by decide)).1] at hti
  have hieq : i = i' := natDigits_inj hti
  have hdrop := congrArg (List.dropWhile isDigitB) h1
  rw [(takeWhile_all_cons_append isDigitB (natDigits i) ' ' _ (natDigits_digits i) (by decide)).2,
      (takeWhile_all_cons_append isDigitB (natDigits i') ' ' _ (natDigits_digits i') (by decide)).2] at hdrop
  injection hdrop with _ hdrop2
  have h2 := List.append_cancel_left hdrop2
  simp only [show str "' valid range is [" =
    sqChar :: str " valid range is [" from by decide, List.cons_append] at h2
  have htn := congrArg (List.takeWhile isWordChar) h2
  rw [(takeWhile_all_cons_append isWordChar nm sqChar _ hw (by decide)).1,
      (takeWhile_all_cons_append isWordChar nm' sqChar _ hw' (by decide)).1] at htn
  exact ⟨hieq, htn⟩

/-- Shared helper: an out-of-range access whose array is registered emits
its out-of-range diagnostic. -/
theorem arrayBounds_mem_of_out (t : List Char) (ln : Nat)
    (arrays : List (List Char × ArrInfo)) (nm ds : List Char) (lo hi dl : Nat)
    (hmem : (nm, ds) ∈ scanArrAccess t)
    (hget : mapGet arrays (strLower nm) = some ⟨lo, hi, dl⟩)
    (hout : digitsToNat ds < lo ∨ hi < digitsToNat ds) :
    (⟨ln, arrMsg nm (digitsToNat ds) lo hi, Severity.error⟩ : Diag) ∈
      arrayBoundsErrs t ln arrays := by
  unfold arrayBoundsErrs
  rw [List.mem_flatMap]
  refine ⟨(nm, ds), hmem, ?_⟩
  simp only []
  rw [hget]
  split
  · rename_i arrayInfo heq
    obtain rfl : ({ start := lo, stop := hi, line := dl } : ArrInfo) = arrayInfo :=
      Option.some.inj heq
    rw [if_pos]
    · exact List.mem_singleton.mpr rfl
    · simp only [Bool.or_eq_true, decide_eq_true_eq]
      exact hout
  · rename_i heq
    exact absurd heq (by simp)

/-- C4: for a `name[i]` access found on the line with `name` registered in
the array table with inclusive bounds `[lo:hi]`, the out-of-range
diagnostic naming exactly this access and range is emitted iff `i < lo` or
`i > hi`; and the two-line example is invalid with precisely the
out-of-range error on line 2 citing range [1:5]. -/
theorem c4_array_bounds :
    (∀ (t : List Char) (ln : Nat) (arrays : List (List Char × ArrInfo))
        (nm ds : List Char) (lo hi dl : Nat),
        (nm, ds) ∈ scanArrAccess t →
        mapGet arrays (strLower nm) = some ⟨lo, hi, dl⟩ →
        ((⟨ln, arrMsg nm (digitsToNat ds) lo hi, Severity.error⟩ : Diag) ∈
            arrayBoundsErrs t ln arrays ↔
          (digitsToNat ds < lo ∨ hi < digitsToNat ds))) ∧
    syntaxCheck "DECLARE arr: ARRAY[1:5] OF INTEGER\nOUTPUT arr[10]" =
      ⟨false, [⟨2, arrMsg (str "arr") 10 1 5, Severity.error⟩]⟩ := by
  constructor
  · intro t ln arrays nm ds lo hi dl hmem hget
    constructor
    · intro hd
      unfold arrayBoundsErrs at hd
      rw [List.mem_flatMap] at hd
      obtain ⟨m, hm, hd⟩ := hd
      rcases m with ⟨nm', ds'⟩
      cases hget' : mapGet arrays (strLower nm') with
      | none =>
        rw [hget'] at hd
        exact absurd hd (List.not_mem_nil _)
      | some info =>
        rw [hget'] at hd
        split at hd
        · rename_i arrayInfo heq
          obtain rfl : info = arrayInfo := Option.some.inj heq
          split at hd
          · rw [List.mem_singleton] at hd
            have hmsg : arrMsg nm (digitsToNat ds) lo hi =
                arrMsg nm' (digitsToNat ds') info.start info.stop :=
              congrArg Diag.message hd
            obtain ⟨hwnm, _, _, _⟩ := scanArrAccessF_shape _ _ _ _ hmem
            obtain ⟨hwnm', _, _, _⟩ := scanArrAccessF_shape _ _ _ _ hm
            obtain ⟨hieq, hnmeq⟩ :=
              arrMsg_inj nm nm' (digitsToNat ds) (digitsToNat ds') lo hi
                info.start info.stop hwnm hwnm' hmsg
            rw [← hnmeq, hget] at hget'
            obtain rfl : ({ start := lo, stop := hi, line := dl } : ArrInfo) = info :=
              Option.some.inj hget'
            rename_i hcond
            rw [← hieq] at hcond
            simp only [Bool.or_eq_true, decide_eq_true_eq] at hcond
            exact hcond
          · exact absurd hd (List.not_mem_nil _)
        · rename_i heq
          exact absurd heq (by simp)
    · intro hout
      exact arrayBounds_mem_of_out t ln arrays nm ds lo hi dl hmem hget hout
  · decide

/-- Witness for C4: the access `a[7]` against a registered range [1:5] is
out of range and the corresponding error is emitted. -/
theorem c4_array_bounds_witness :
    ((str "a", str "7") ∈ scanArrAccess (str "OUTPUT a[7]") ∧
     mapGet [(str "a", (⟨1, 5, 1⟩ : ArrInfo))] (strLower (str "a")) = some ⟨1, 5, 1⟩) ∧
    (⟨1, arrMsg (str "a") (digitsToNat (str "7")) 1 5, Severity.error⟩ : Diag) ∈
      arrayBoundsErrs (str "OUTPUT a[7]") 1 [(str "a", ⟨1, 5, 1⟩)] :=
  ⟨⟨by decide, by decide⟩,
   (c4_array_bounds.1 (str "OUTPUT a[7]") 1 [(str "a", ⟨1, 5, 1⟩)] (str "a") (str "7")
     1 5 1 (by decide) (by decide)).mpr (by decide)⟩

/-- A diagnostic whose message does not start with `Array` (classified by
its first three characters, `Arr`): not a bounds diagnostic. -/
def noArrD (d : Diag) : Prop := d.message.take 3 ≠ str "Arr"

theorem noArrD_lit (ln : Nat) (sev : Severity) (s : String)
    (h : (str s).take 3 ≠ str "Arr") : noArrD ⟨ln, str s, sev⟩ := h

theorem noArrD_cat (ln : Nat) (sev : Severity) (s : String) (rest : List Char)
    (h3 : 3 ≤ (str s).length) (h : (str s).take 3 ≠ str "Arr") :
    noArrD ⟨ln, str s ++ rest, sev⟩ := by
  show (str s ++ rest).take 3 ≠ str "Arr"
  rw [take3_cat s rest h3]
  exact h

theorem noArrD_apos (ln : Nat) (sev : Severity) (rest : List Char) :
    noArrD ⟨ln, str "'" ++ rest, sev⟩ := by
  have he : str "'" ++ rest = sqChar :: rest := by
    have h1 : str "'" = [sqChar] := by decide
    rw [h1, List.singleton_append]
  show (str "'" ++ rest).take 3 ≠ str "Arr"
  rw [he, show str "Arr" = 'A' :: str "rr" from by decide]
  exact take3_ne_of_head_ne sqChar rest 'A' (str "rr") (by decide)

theorem noArr_declVarStep (ln : Nat) (afterColon : List Char)
    (acc : List Diag × List (List Char) × List (List Char × TypeInfo))
    (varName : List Char) (hacc : ∀ d ∈ acc.1, noArrD d) :
    ∀ d ∈ (declVarStep ln afterColon acc varName).1, noArrD d := by
  intro d hd
  unfold declVarStep at hd
  split at hd
  · split at hd
    · rcases List.mem_append.mp hd with h | h
      · exact hacc d h
      · rw [List.mem_singleton] at h
        subst h
        simp only [List.append_assoc]
        exact noArrD_apos ln _ _
    · split at hd
      · split at hd
        · split at hd
          all_goals
            rcases List.mem_append.mp hd with h | h
            · exact hacc d h
            · rw [List.mem_singleton] at h
              subst h
              simp only [List.append_assoc]
              exact noArrD_cat ln _ "Variable '" _ (by decide) (by decide)
        · rcases List.mem_append.mp hd with h | h
          · exact hacc d h
          · rw [List.mem_singleton] at h
            subst h
            simp only [List.append_assoc]
            exact noArrD_cat ln _ "Variable '" _ (by decide) (by decide)
      · exact hacc d hd
  · exact hacc d hd

theorem noArr_declFold (ln : Nat) (afterColon : List Char) :
    ∀ (names : List (List Char))
      (acc : List Diag × List (List Char) × List (List Char × TypeInfo)),
      (∀ d ∈ acc.1, noArrD d) →
      ∀ d ∈ (names.foldl (declVarStep ln afterColon) acc).1, noArrD d := by
  intro names
  induction names with
  | nil => intro acc h; exact h
  | cons n ns ih =>
    intro acc h
    exact ih (declVarStep ln afterColon acc n) (noArr_declVarStep ln afterColon acc n h)

theorem noArr_declareHandling (t : List Char) (ln : Nat) (vars : List (List Char))
    (types : List (List Char × TypeInfo)) (arrays : List (List Char × ArrInfo)) :
    ∀ d ∈ (declareHandling t ln vars types arrays).1, noArrD d := by
  intro d hd
  unfold declareHandling at hd
  split at hd
  · exact absurd hd (List.not_mem_nil d)
  · split at hd
    · rw [List.mem_singleton] at hd
      subst hd
      exact noArrD_lit ln _ _ (by decide)
    · simp only [] at hd
      split at hd
      · exact absurd hd (List.not_mem_nil d)
      · exact noArr_declFold ln _ _ _ (fun d hd' => absurd hd' (List.not_mem_nil d)) d hd

/-- C10: an inverted-range array declaration (lower bound greater than
upper bound) registers without any bounds-related diagnostic, and every
subsequent literal-indexed access to that array is reported out of range,
whatever the index (the inclusive range is empty). -/
theorem c10_inverted_range :
    (∀ (t : List Char) (ln : Nat) (vars : List (List Char))
        (types : List (List Char × TypeInfo)) (arrays : List (List Char × ArrInfo))
        (nm d1 d2 : List Char),
        matchDeclArr t = some (nm, d1, d2) →
        digitsToNat d2 < digitsToNat d1 →
        ∀ d ∈ (declareHandling t ln vars types arrays).1, d.message.take 3 ≠ str "Arr") ∧
    (∀ (t : List Char) (ln : Nat) (arrays : List (List Char × ArrInfo))
        (nm ds : List Char) (lo hi dl : Nat),
        (nm, ds) ∈ scanArrAccess t →
        mapGet arrays (strLower nm) = some ⟨lo, hi, dl⟩ →
        hi < lo →
        (⟨ln, arrMsg nm (digitsToNat ds) lo hi, Severity.error⟩ : Diag) ∈
          arrayBoundsErrs t ln arrays) := by
  constructor
  · intro t ln vars types arrays nm d1 d2 _ _ d hd
    exact noArr_declareHandling t ln vars types arrays d hd
  · intro t ln arrays nm ds lo hi dl hmem hget hinv
    exact arrayBounds_mem_of_out t ln arrays nm ds lo hi dl hmem hget (by omega)

/-- Witness for C10: `DECLARE b: ARRAY[5:1] OF INTEGER` (inverted range,
with `b` previously declared so that the rule emits a diagnostic, which is
not bounds-related), and an access `a[3]` against the registered empty
range [5:1]. -/
theorem c10_inverted_range_witness :
    (matchDeclArr (str "DECLARE b: ARRAY[5:1] OF INTEGER") = some (str "b", str "5", str "1") ∧
     digitsToNat (str "1") < digitsToNat (str "5") ∧
     (⟨1, str "Variable '" ++ str "b" ++ str "' redeclared with different type. Previously declared as " ++ str "X" ++ str " on line " ++ natDigits 1, Severity.error⟩ : Diag) ∈
       (declareHandling (str "DECLARE b: ARRAY[5:1] OF INTEGER") 1 [str "b"]
         [(str "b", ⟨str "X", 1⟩)] []).1) ∧
    (⟨1, str "Variable '" ++ str "b" ++ str "' redeclared with different type. Previously declared as " ++ str "X" ++ str " on line " ++ natDigits 1, Severity.error⟩ : Diag).message.take 3 ≠ str "Arr" ∧
    (⟨2, arrMsg (str "a") (digitsToNat (str "3")) 5 1, Severity.error⟩ : Diag) ∈
      arrayBoundsErrs (str "OUTPUT a[3]") 2 [(str "a", ⟨5, 1, 1⟩)] :=
  ⟨⟨by decide, by decide, by decide⟩,
   c10_inverted_range.1 (str "DECLARE b: ARRAY[5:1] OF INTEGER") 1 [str "b"]
     [(str "b", ⟨str "X", 1⟩)] [] (str "b") (str "5") (str "1") (by decide) (by decide)
     _ (by decide),
   c10_inverted_range.2 (str "OUTPUT a[3]") 2 [(str "a", ⟨5, 1, 1⟩)] (str "a") (str "3")
     5 1 1 (by decide) (by decide) (by decide)⟩

end PseudoChecker
